import Mathlib

/-!
Verification development for the GameSaver backup engine.

This file gives a shallow embedding, in Lean 4, of the core services of the
GameSaver repository (an Electron/TypeScript application that snapshots,
verifies and restores game-save files), and proves or refutes a fixed set of
claims about them.

Embedding conventions:
* JavaScript numbers are modelled as exact fractions (structure JsNum).  All
  arithmetic appearing in the embedded code (Jaccard scores, the 0.45
  threshold, progress percentages) stays in ranges where IEEE-754 doubles and
  exact rationals order identically: every comparison performed by the code
  compares short decimal literals and small fractions p/q whose distance
  exceeds the double rounding error by many orders of magnitude, and the
  double nearest to p/q computed by one division equals the double nearest to
  the equal decimal literal, so strict/loose comparison outcomes coincide.
* String.prototype.localeCompare with the default locale is modelled as
  code-point comparison.  Both return 0 exactly on equal strings, and both
  are total orders; no theorem below depends on how two distinct strings are
  ordered, only on these two properties.
* Array.prototype.sort is stable (ES2019); it is modelled by a stable
  insertion sort driven by the comparator's sign.
* The filesystem, clock, uuid generator, Date parsing/formatting, the
  registry and process environment are explicit state (World) or oracle
  functions (Env / DetectEnv); fs.readFileSync composed with JSON.parse is
  modelled as a lookup returning an already-parsed JSON value.
* Modules of the repository that are imported by the embedded services but
  whose sources are not available (hash, fileOps, db, storage, gameService,
  saveLocationService, eventLogService) are modelled from the specification;
  each such definition carries a doc comment starting with
  "Modelled from the spec:".
-/

namespace GameSaver

/-! ## Exact-fraction model of JavaScript numbers -/

/-- A JavaScript number, modelled as an exact fraction.  Every operation
below keeps the denominator positive; values are not normalised, so
comparisons cross-multiply. -/
structure JsNum where
  num : Int
  den : Nat
deriving DecidableEq, Repr

/-- Embed an integer. -/
def JsNum.ofInt (n : Int) : JsNum := ⟨n, 1⟩

/-- Embed a natural number. -/
def JsNum.ofNat (n : Nat) : JsNum := ⟨n, 1⟩

/-- The JS division a / b of two natural counts (used for the Jaccard index,
where the caller has checked the denominator is positive). -/
def JsNum.fracNat (a b : Nat) : JsNum := ⟨a, b⟩

/-- Addition. -/
def JsNum.add (a b : JsNum) : JsNum :=
  ⟨a.num * b.den + b.num * a.den, a.den * b.den⟩

/-- Subtraction. -/
def JsNum.sub (a b : JsNum) : JsNum :=
  ⟨a.num * b.den - b.num * a.den, a.den * b.den⟩

/-- Multiplication. -/
def JsNum.mul (a b : JsNum) : JsNum := ⟨a.num * b.num, a.den * b.den⟩

/-- Strict comparison a < b, as a Bool (cross-multiplied). -/
def JsNum.ltB (a b : JsNum) : Bool := a.num * b.den < b.num * a.den

/-- Loose comparison a ≤ b, as a Bool. -/
def JsNum.leB (a b : JsNum) : Bool := a.num * b.den ≤ b.num * a.den

/-- The proposition a < b. -/
def JsNum.lt (a b : JsNum) : Prop := a.ltB b = true

instance (a b : JsNum) : Decidable (a.lt b) := by
  unfold JsNum.lt; infer_instance

/-- Math.max. -/
def JsNum.maxJ (a b : JsNum) : JsNum := if a.ltB b then b else a

/-- Math.min. -/
def JsNum.minJ (a b : JsNum) : JsNum := if b.ltB a then b else a

/-- Math.round: round half toward positive infinity, i.e. floor (x + 1/2). -/
def JsNum.roundJ (a : JsNum) : Int := Int.fdiv (2 * a.num + a.den) (2 * a.den)

/-- Is the value ≤ 0?  (Well-defined because denominators stay positive.) -/
def JsNum.nonposB (a : JsNum) : Bool := a.num ≤ 0

/-- Array.prototype.sort with a numeric comparator: stable, placing a before
b whenever the comparator is ≤ 0 on (a, b).  For a consistent comparator this
is exactly the ES2019 result. -/
def jsSortBy {α : Type} (c : α → α → JsNum) (l : List α) : List α :=
  List.insertionSort (fun a b => (c a b).nonposB = true) l

/-! ## Character and string utilities (all structural, so they evaluate
inside the kernel) -/

/-- Code-point comparison of two characters: -1, 0 or 1. -/
def charCmp (a b : Char) : Int :=
  if a.toNat < b.toNat then -1 else if b.toNat < a.toNat then 1 else 0

/-- Lexicographic code-point comparison of two character lists. -/
def listCharCmp : List Char → List Char → Int
  | [], [] => 0
  | [], _ :: _ => -1
  | _ :: _, [] => 1
  | a :: as, b :: bs =>
    if a.toNat < b.toNat then -1
    else if b.toNat < a.toNat then 1
    else listCharCmp as bs

/-- Code-point comparison of strings. -/
def strCmpInt (a b : String) : Int := listCharCmp a.toList b.toList

/-- Model of String.prototype.localeCompare with the default locale: the
sign of the code-point comparison (see the collation note in the header). -/
def localeCompareM (a b : String) : JsNum := JsNum.ofInt (strCmpInt a b)

/-- The string order induced by the comparison model. -/
def strLe (a b : String) : Prop := strCmpInt a b ≤ 0

/-- ASCII lower-casing of a character (the embedded code only compares
ASCII-relevant data; full Unicode folding is not modelled). -/
def lowerChar (c : Char) : Char :=
  if 65 ≤ c.toNat ∧ c.toNat ≤ 90 then Char.ofNat (c.toNat + 32) else c

/-- String.prototype.toLowerCase (ASCII model). -/
def lowerStr (s : String) : String := String.mk (s.toList.map lowerChar)

/-- Is the character JS whitespace (ASCII model: space, tab, LF, CR, FF, VT)? -/
def isSpaceChar (c : Char) : Bool :=
  c = ' ' ∨ c = '\t' ∨ c = '\n' ∨ c = '\r' ∨ c.toNat = 12 ∨ c.toNat = 11

/-- Drop leading whitespace. -/
def dropLeadingSpaces : List Char → List Char
  | [] => []
  | c :: rest => if isSpaceChar c then dropLeadingSpaces rest else c :: rest

/-- String.prototype.trim (ASCII whitespace model). -/
def jsTrim (s : String) : String :=
  String.mk ((dropLeadingSpaces (dropLeadingSpaces s.toList.reverse).reverse))

/-- Does the character list start with the given pattern? -/
def charsStartWith : List Char → List Char → Bool
  | _, [] => true
  | [], _ :: _ => false
  | c :: rest, p :: ps => c = p && charsStartWith rest ps

/-- String.prototype.startsWith. -/
def strStartsWith (s pre : String) : Bool := charsStartWith s.toList pre.toList

/-- Does the character list contain the pattern as a substring? -/
def charsContain (s p : List Char) : Bool :=
  match s with
  | [] => charsStartWith [] p
  | _ :: rest => charsStartWith s p || charsContain rest p

/-- String.prototype.includes. -/
def strContains (s p : String) : Bool := charsContain s.toList p.toList

/-- Decimal digits of a natural number, most significant first. -/
def natDigits (fuel n : Nat) : List Char :=
  match fuel with
  | 0 => []
  | f + 1 =>
    if n < 10 then [Char.ofNat (48 + n)]
    else natDigits f (n / 10) ++ [Char.ofNat (48 + n % 10)]

/-- Render a natural number in decimal (model of JS number-to-string for the
integer values interpolated into progress messages). -/
def natToStr (n : Nat) : String := String.mk (natDigits (n + 1) n)

/-! ## SHA-256 (the content/string hash of the missing hash module:
"Content hash of a file: SHA-256 over the byte stream; returned as lowercase
hex.  String hash: SHA-256 over UTF-8 bytes; same encoding.") -/

/-- Right-rotation of a 32-bit word. -/
def rotr32 (x n : Nat) : Nat := ((x >>> n) ||| (x <<< (32 - n))) % 4294967296

/-- The SHA-256 round constants. -/
def sha256K : List Nat :=
  [1116352408, 1899447441, 3049323471, 3921009573, 961987163, 1508970993,
   2453635748, 2870763221, 3624381080, 310598401, 607225278, 1426881987,
   1925078388, 2162078206, 2614888103, 3248222580, 3835390401, 4022224774,
   264347078, 604807628, 770255983, 1249150122, 1555081692, 1996064986,
   2554220882, 2821834349, 2952996808, 3210313671, 3336571891, 3584528711,
   113926993, 338241895, 666307205, 773529912, 1294757372, 1396182291,
   1695183700, 1986661051, 2177026350, 2456956037, 2730485921, 2820302411,
   3259730800, 3345764771, 3516065817, 3600352804, 4094571909, 275423344,
   430227734, 506948616, 659060556, 883997877, 958139571, 1322822218,
   1537002063, 1747873779, 1955562222, 2024104815, 2227730452, 2361852424,
   2428436474, 2756734187, 3204031479, 3329325298]

/-- SHA-256 message padding. -/
def sha256Pad (msg : List Nat) : List Nat :=
  let len := msg.length
  let bitLen := len * 8
  let padZeros := (119 - len % 64) % 64
  let lenBytes := (List.range 8).map (fun i => (bitLen >>> ((7 - i) * 8)) % 256)
  msg ++ [0x80] ++ List.replicate padZeros 0 ++ lenBytes

/-- Big-endian assembly of 32-bit words from bytes. -/
def bytesToWords : List Nat → List Nat
  | a :: b :: c :: d :: rest => (a * 16777216 + b * 65536 + c * 256 + d) :: bytesToWords rest
  | _ => []

/-- Extend the 16-word schedule to 64 words (fuel counts the 48 extensions). -/
def sha256Extend (w : List Nat) (fuel : Nat) : List Nat :=
  match fuel with
  | 0 => w
  | f + 1 =>
    let n := w.length
    let w2 := w.getD (n - 2) 0
    let w7 := w.getD (n - 7) 0
    let w15 := w.getD (n - 15) 0
    let w16 := w.getD (n - 16) 0
    let s0 := Nat.xor (Nat.xor (rotr32 w15 7) (rotr32 w15 18)) (w15 >>> 3)
    let s1 := Nat.xor (Nat.xor (rotr32 w2 17) (rotr32 w2 19)) (w2 >>> 10)
    sha256Extend (w ++ [(w16 + s0 + w7 + s1) % 4294967296]) f

/-- The eight working variables of the compression function. -/
structure Sha256State where
  a : Nat
  b : Nat
  c : Nat
  d : Nat
  e : Nat
  f : Nat
  g : Nat
  h : Nat
deriving DecidableEq, Repr

/-- One round of the SHA-256 compression function. -/
def sha256Step (st : Sha256State) (kw : Nat × Nat) : Sha256State :=
  let s1 := Nat.xor (Nat.xor (rotr32 st.e 6) (rotr32 st.e 11)) (rotr32 st.e 25)
  let ch := Nat.xor (Nat.land st.e st.f) (Nat.land (4294967295 - st.e) st.g)
  let t1 := (st.h + s1 + ch + kw.1 + kw.2) % 4294967296
  let s0 := Nat.xor (Nat.xor (rotr32 st.a 2) (rotr32 st.a 13)) (rotr32 st.a 22)
  let maj := Nat.xor (Nat.xor (Nat.land st.a st.b) (Nat.land st.a st.c)) (Nat.land st.b st.c)
  let t2 := (s0 + maj) % 4294967296
  { a := (t1 + t2) % 4294967296, b := st.a, c := st.b, d := st.c,
    e := (st.d + t1) % 4294967296, f := st.e, g := st.f, h := st.g }

/-- Process one 64-byte chunk. -/
def sha256Chunk (h : Sha256State) (chunk : List Nat) : Sha256State :=
  let w := sha256Extend (bytesToWords chunk) 48
  let st := (sha256K.zip w).foldl sha256Step h
  { a := (h.a + st.a) % 4294967296, b := (h.b + st.b) % 4294967296,
    c := (h.c + st.c) % 4294967296, d := (h.d + st.d) % 4294967296,
    e := (h.e + st.e) % 4294967296, f := (h.f + st.f) % 4294967296,
    g := (h.g + st.g) % 4294967296, h := (h.h + st.h) % 4294967296 }

/-- Split a byte list into 64-byte chunks (fuel-driven; fuel = length works). -/
def chunks64 (fuel : Nat) (l : List Nat) : List (List Nat) :=
  match fuel, l with
  | _, [] => []
  | 0, _ => []
  | f + 1, l => l.take 64 :: chunks64 f (l.drop 64)

/-- Lowercase hex digit. -/
def hexDigit (n : Nat) : Char :=
  if n < 10 then Char.ofNat (48 + n) else Char.ofNat (87 + n)

/-- Render a 32-bit word as 8 lowercase hex characters. -/
def wordToHex (n : Nat) : List Char :=
  (List.range 8).map (fun i => hexDigit ((n >>> ((7 - i) * 4)) % 16))

/-- SHA-256 of a byte list, as a lowercase hex string. -/
def sha256Bytes (msg : List Nat) : String :=
  let padded := sha256Pad msg
  let h0 : Sha256State :=
    ⟨1779033703, 3144134277, 1013904242, 2773480762,
      1359893119, 2600822924, 528734635, 1541459225⟩
  let hh := (chunks64 padded.length padded).foldl sha256Chunk h0
  String.mk (wordToHex hh.a ++ wordToHex hh.b ++ wordToHex hh.c ++ wordToHex hh.d ++
             wordToHex hh.e ++ wordToHex hh.f ++ wordToHex hh.g ++ wordToHex hh.h)

/-- UTF-8 encoding of one character. -/
def utf8Enc (c : Char) : List Nat :=
  let n := c.toNat
  if n < 128 then [n]
  else if n < 2048 then [192 + n / 64, 128 + n % 64]
  else if n < 65536 then [224 + n / 4096, 128 + (n / 64) % 64, 128 + n % 64]
  else [240 + n / 262144, 128 + (n / 4096) % 64, 128 + (n / 64) % 64, 128 + n % 64]

/-- UTF-8 bytes of a string. -/
def strBytes (s : String) : List Nat := s.toList.flatMap utf8Enc

/-- Modelled from the spec: the hash module is not among the available
sources; §4.1 defines the string hash as SHA-256 over UTF-8 bytes, returned
as lowercase hex. -/
def hashText (s : String) : String := sha256Bytes (strBytes s)

/-! ## Node path module, posix flavour

The application runs on Windows, but node's path semantics are modelled in
posix flavour (separator "/", no drive letters, no case folding) to keep one
canonical separator; every claim below is separator-agnostic. -/

/-- Split a character list at characters satisfying p (keeping empty runs). -/
def splitCharsAux (p : Char → Bool) : List Char → List Char → List (List Char)
  | [], acc => [acc.reverse]
  | c :: rest, acc =>
    if p c then acc.reverse :: splitCharsAux p rest [] else splitCharsAux p rest (c :: acc)

/-- Split a string at characters satisfying p. -/
def splitStr (p : Char → Bool) (s : String) : List String :=
  (splitCharsAux p s.toList []).map String.mk

/-- Is the path absolute (posix)? -/
def isAbsPath (s : String) : Bool := strStartsWith s "/"

/-- Resolve "." and ".." segments; absolute paths drop ".." at the root. -/
def normSegsAux (absolute : Bool) : List String → List String → List String
  | [], stack => stack.reverse
  | seg :: rest, stack =>
    if seg = "" ∨ seg = "." then normSegsAux absolute rest stack
    else if seg = ".." then
      match stack with
      | [] =>
        if absolute then normSegsAux absolute rest []
        else normSegsAux absolute rest [".."]
      | top :: more =>
        if top = ".." then normSegsAux absolute rest (".." :: top :: more)
        else normSegsAux absolute rest more
    else normSegsAux absolute rest (seg :: stack)

/-- Join segments with "/". -/
def joinSegs : List String → String
  | [] => ""
  | [s] => s
  | s :: rest => s ++ "/" ++ joinSegs rest

/-- node path.normalize (posix; trailing separators are not preserved, which
is invisible to the embedded code because every normalized path is fed into
path.resolve or compared whole). -/
def pathNormalize (s : String) : String :=
  let abs := isAbsPath s
  let segs := normSegsAux abs (splitStr (fun c => c = '/') s) []
  if abs then "/" ++ joinSegs segs
  else if segs = [] then "." else joinSegs segs

/-- node path.resolve (posix), with the working directory modelled as "/". -/
def pathResolve (parts : List String) : String :=
  let ps := parts.foldl (fun acc p => if isAbsPath p then [p] else acc ++ [p]) []
  let withRoot := match ps with
    | [] => ["/"]
    | p :: _ => if isAbsPath p then ps else "/" :: ps
  let segs := normSegsAux true ((withRoot.map (splitStr (fun c => c = '/'))).flatten) []
  "/" ++ joinSegs segs

/-- node path.join (posix): concatenate the non-empty parts and normalize. -/
def pathJoin (parts : List String) : String :=
  let nonEmpty := parts.filter (fun p => ¬(p = ""))
  if nonEmpty.isEmpty then "." else pathNormalize (joinSegs nonEmpty)

/-- node path.basename (posix). -/
def pathBasename (s : String) : String :=
  let segs := (splitStr (fun c => c = '/') s).filter (fun p => ¬(p = ""))
  segs.getLastD ""

/-- node path.dirname (posix). -/
def pathDirname (s : String) : String :=
  let abs := isAbsPath s
  let segs := (splitStr (fun c => c = '/') s).filter (fun p => ¬(p = ""))
  if segs.length ≤ 1 then (if abs then "/" else ".")
  else (if abs then "/" else "") ++ joinSegs segs.dropLast

/-- Index of the last occurrence of a character, if any. -/
def lastIndexOfChar (ch : Char) (cs : List Char) : Option Nat :=
  ((cs.zip (List.range cs.length)).filter (fun e => e.1 = ch)).getLast?.map (·.2)

/-- node path.extname (posix). -/
def pathExtname (s : String) : String :=
  let b := (pathBasename s).toList
  match lastIndexOfChar '.' b with
  | none => ""
  | some i => if i = 0 then "" else String.mk (b.drop i)

/-- path.parse(...).name: the basename without its extension. -/
def pathNameNoExt (s : String) : String :=
  let b := (pathBasename s).toList
  match lastIndexOfChar '.' b with
  | none => String.mk b
  | some i => if i = 0 then String.mk b else String.mk (b.take i)

/-- node path.relative (posix). -/
def pathRelative (fro target : String) : String :=
  let fromSegs := (splitStr (fun c => c = '/') (pathResolve [fro])).filter (fun p => ¬(p = ""))
  let toSegs := (splitStr (fun c => c = '/') (pathResolve [target])).filter (fun p => ¬(p = ""))
  let rec dropCommon : List String → List String → List String × List String
    | a :: as, b :: bs => if a = b then dropCommon as bs else (a :: as, b :: bs)
    | as, bs => (as, bs)
  let (fr, tr) := dropCommon fromSegs toSegs
  joinSegs (fr.map (fun _ => "..") ++ tr)

/-! ## JSON values

fs.readFileSync composed with JSON.parse is modelled as returning an
already-parsed JVal (or none when either throws); JSON numbers are modelled
as integers, which covers every number the embedded code inspects (the
manifest version). -/

/-- A parsed JSON document. -/
inductive JVal where
  | null
  | bool (b : Bool)
  | num (n : Int)
  | str (s : String)
  | arr (elems : List JVal)
  | obj (fields : List (String × JVal))

/-- Property access o[k] on a parsed JSON value (undefined = none). -/
def jvalGet (j : JVal) (k : String) : Option JVal :=
  match j with
  | .obj kvs => (kvs.find? (fun e => e.1 == k)).map (·.2)
  | _ => none

/-- Render an integer in decimal. -/
def intToStr (n : Int) : String :=
  if n < 0 then "-" ++ natToStr (-n).toNat else natToStr n.toNat

/-- Array.prototype.join with a separator. -/
def joinWith (sep : String) : List String → String
  | [] => ""
  | [s] => s
  | s :: rest => s ++ sep ++ joinWith sep rest

/-- Depth-bounded rendering of a JSON value (used only to give JSON files a
byte content for the file-hash model; manifests have depth 3). -/
def jvalRender (fuel : Nat) (j : JVal) : String :=
  match fuel, j with
  | 0, _ => ""
  | _, .null => "null"
  | _, .bool b => if b then "true" else "false"
  | _, .num n => intToStr n
  | _, .str s => "\"" ++ s ++ "\""
  | f + 1, .arr elems => "[" ++ joinWith "," (elems.map (jvalRender f)) ++ "]"
  | f + 1, .obj kvs => "\x7b" ++ joinWith "," (kvs.map (fun e => "\"" ++ e.1 ++ "\":" ++ jvalRender f e.2)) ++ "\x7d"

/-! ## Data model (shared/types) -/

/-- SaveLocation.type. -/
inductive LocationType where
  | file
  | folder
deriving DecidableEq, Repr

/-- Game.status; prot stands for the source's protected, a Lean keyword. -/
inductive GameStatus where
  | prot
  | warning
  | error
deriving DecidableEq, Repr

/-- Snapshot.reason. -/
inductive SnapshotReason where
  | auto
  | manual
  | preRestore
deriving DecidableEq, Repr

/-- The string form of a reason, as interpolated into messages and written
to manifests. -/
def reasonToStr : SnapshotReason → String
  | .auto => "auto"
  | .manual => "manual"
  | .preRestore => "pre-restore"

/-- Event log entry type. -/
inductive EventType where
  | backup
  | restore
  | error
deriving DecidableEq, Repr

/-- A stored game row. -/
structure StoredGame where
  id : String
  name : String
  install_path : String
  exe_path : String
  created_at : String
  last_seen_at : Option String
  status : GameStatus
  folder_name : String
deriving DecidableEq, Repr

/-- A stored save-location row. -/
structure StoredSaveLocation where
  id : String
  game_id : String
  path : String
  type : LocationType
  auto_detected : Bool
  enabled : Bool
deriving DecidableEq, Repr

/-- A snapshot row. -/
structure Snapshot where
  id : String
  game_id : String
  created_at : String
  size_bytes : Nat
  checksum : String
  storage_path : String
  reason : SnapshotReason
deriving DecidableEq, Repr

/-- A snapshot-file row. -/
structure SnapshotFile where
  id : String
  snapshot_id : String
  location_id : String
  relative_path : String
  size_bytes : Nat
  checksum : String
deriving DecidableEq, Repr

/-- An event-log row (Modelled from the spec §3: the eventLogService module
is not among the available sources; ids are modelled as the append index). -/
structure EventLogEntry where
  id : String
  game_id : Option String
  type : EventType
  message : String
  created_at : String
deriving DecidableEq, Repr

/-- verifySnapshot's result. -/
structure VerifyResult where
  ok : Bool
  issues : Nat
deriving DecidableEq, Repr

/-- One location entry of a snapshot manifest. -/
structure SnapshotManifestLocation where
  path : String
  type : LocationType
  auto_detected : Bool
  enabled : Bool
  storage_folder : String
deriving DecidableEq, Repr

/-- A validated snapshot manifest (version is always 2 after validation). -/
structure SnapshotManifestPayload where
  version : Nat
  snapshot_id : String
  created_at : String
  reason : SnapshotReason
  locations : List (String × SnapshotManifestLocation)
deriving DecidableEq, Repr

/-! ## World state and environment oracles -/

/-- The content of a file on disk: raw text, or a JSON document (the
readFileSync + JSON.parse composite is modelled as returning the parsed
value). -/
inductive FileVal where
  | text (s : String)
  | jsonDoc (j : JVal)

/-- The mutable state every backup-service operation acts on: the library
index rows, the filesystem, the in-flight backup set, and the external
uuid/clock supplies. -/
structure World where
  games : List StoredGame
  saveLocations : List StoredSaveLocation
  snapshots : List Snapshot
  snapshotFiles : List SnapshotFile
  events : List EventLogEntry
  files : List (String × FileVal)
  dirs : List String
  inFlight : List String
  uuids : List String
  now : String
  persistCount : Nat

/-- Environment oracles for the backup service: which copies/removals fail
(timing and lock behaviour of the host), and the host Date library. -/
structure Env where
  copyFails : String → String → Bool
  removeDirFails : String → Bool
  formatTimestamp : String → String
  dateIso : String → Option String

/-- The effect monad of the backup service: state (World) plus exceptions
whose state changes survive the exception, exactly like thrown JS errors
leave completed disk/index writes in place. -/
def M (α : Type) : Type := World → Except String α × World

instance : Monad M where
  pure a := fun w => (Except.ok a, w)
  bind x f := fun w =>
    match x w with
    | (Except.ok a, w2) => f a w2
    | (Except.error e, w2) => (Except.error e, w2)

/-- Throw a JS Error with the given message. -/
def M.throw {α : Type} (e : String) : M α := fun w => (Except.error e, w)

/-- Read the current world. -/
def M.get : M World := fun w => (Except.ok w, w)

/-- Replace the world. -/
def M.modifyW (f : World → World) : M Unit := fun w => (Except.ok (), f w)

/-! ## Filesystem and index primitives (the fileOps / storage / db /
gameService / saveLocationService / eventLogService modules are not among
the available sources; they are modelled from the specification) -/

/-- Look up a file's content. -/
def lookupFile (w : World) (p : String) : Option FileVal :=
  (w.files.find? (fun e => e.1 == p)).map (·.2)

/-- fs.existsSync: a path exists when it is a file, a created directory, or
an ancestor directory of either. -/
def fsExists (w : World) (p : String) : Bool :=
  (lookupFile w p).isSome || w.dirs.contains p ||
  w.files.any (fun e => strStartsWith e.1 (p ++ "/")) ||
  w.dirs.any (fun d => strStartsWith d (p ++ "/"))

/-- Modelled from the spec: storage.ensureDir creates a directory
(recursively); parents are implied by the prefix-aware fsExists. -/
def ensureDirW (w : World) (p : String) : World :=
  if w.dirs.contains p then w else { w with dirs := w.dirs ++ [p] }

/-- Write or overwrite a file. -/
def writeFileW (w : World) (p : String) (v : FileVal) : World :=
  if (lookupFile w p).isSome then
    { w with files := w.files.map (fun e => if e.1 == p then (p, v) else e) }
  else
    { w with files := w.files ++ [(p, v)] }

/-- Modelled from the spec §4.1: the directory walk produces the file paths
strictly under a root (symbolic links are not modelled). -/
def walkFiles (w : World) (root : String) : List String :=
  (w.files.map (·.1)).filter (fun p => strStartsWith p (root ++ "/"))

/-- Modelled from the spec §4.1: copy-with-retries copies source to
destination (creating parents) or fails with CopyFailed after exhausting
retries; the retry schedule is timing behaviour folded into env.copyFails. -/
def copyFileWithRetries (env : Env) (src dst : String) (retries : Nat) : M Unit := fun w =>
  match lookupFile w src with
  | none => (Except.error ("CopyFailed: " ++ src ++ " -> " ++ dst), w)
  | some v =>
    if env.copyFails src dst then (Except.error ("CopyFailed: " ++ src ++ " -> " ++ dst), w)
    else (Except.ok (), writeFileW w dst v)

/-- The byte content backing a file, for sizes and hashes. -/
def fileByteStr (v : FileVal) : String :=
  match v with
  | .text s => s
  | .jsonDoc j => jvalRender 32 j

/-- fs.promises.stat(...).size, as a pure lookup. -/
def statSizeP (w : World) (p : String) : Except String Nat :=
  match lookupFile w p with
  | none => Except.error ("ENOENT: " ++ p)
  | some v => Except.ok (strBytes (fileByteStr v)).length

/-- Modelled from the spec §4.1: hashFile is SHA-256 over the byte stream,
lowercase hex; pure lookup form. -/
def hashFileP (w : World) (p : String) : Except String String :=
  match lookupFile w p with
  | none => Except.error ("ENOENT: " ++ p)
  | some v => Except.ok (hashText (fileByteStr v))

/-- stat in the effect monad. -/
def statSizeM (p : String) : M Nat := fun w => (statSizeP w p, w)

/-- hashFile in the effect monad. -/
def hashFileM (p : String) : M String := fun w => (hashFileP w p, w)

/-- Modelled from the spec §4.1/§4.6: remove_dir_safe is a best-effort
recursive delete that never raises for missing paths but may raise when the
host refuses the removal (env.removeDirFails). -/
def removeDirSafeM (env : Env) (p : String) : M Unit := fun w =>
  if env.removeDirFails p then (Except.error ("Failed to remove directory: " ++ p), w)
  else
    (Except.ok (),
      { w with
        files := w.files.filter (fun e => !(e.1 == p || strStartsWith e.1 (p ++ "/"))),
        dirs := w.dirs.filter (fun d => !(d == p || strStartsWith d (p ++ "/"))) })

/-- Modelled from the spec §4.4: persistDb atomically writes the index
document; only the fact that a persist happened is observable here. -/
def persistDbW (w : World) : World := { w with persistCount := w.persistCount + 1 }

/-- Modelled from the spec §3: logEvent appends to the append-only event
log. -/
def logEventW (w : World) (gameId : Option String) (t : EventType) (msg : String) : World :=
  { w with events := w.events ++ [⟨natToStr w.events.length, gameId, t, msg, w.now⟩] }

/-- Modelled from the spec §4.4: update_status sets a game's status. -/
def updateGameStatusW (w : World) (gameId : String) (st : GameStatus) : World :=
  { w with games := w.games.map (fun g => if g.id == gameId then { g with status := st } else g) }

/-- gameService.getStoredGameById. -/
def getStoredGameById (w : World) (gameId : String) : Option StoredGame :=
  w.games.find? (fun g => g.id == gameId)

/-- Modelled from the spec §4.4: listSaveLocations returns the save
locations of one game (the derived exists flag is not used by the embedded
flows). -/
def listSaveLocationsW (w : World) (gameId : String) : List StoredSaveLocation :=
  w.saveLocations.filter (fun l => l.game_id == gameId)

/-- Draw a fresh uuid from the world's supply. -/
def freshUuid (w : World) : String × World :=
  match w.uuids with
  | [] => ("uuid-exhausted", w)
  | u :: rest => (u, { w with uuids := rest })

/-- uuid() in the effect monad. -/
def freshUuidM : M String := fun w =>
  let (u, w2) := freshUuid w
  (Except.ok u, w2)

/-- Application settings (backupFrequencyMinutes and compressionEnabled are
irrelevant to the embedded flows but kept for shape fidelity). -/
structure Settings where
  backupFrequencyMinutes : Nat
  retentionCount : Nat
  storageRoot : String
  compressionEnabled : Bool
  dataRoot : String
deriving DecidableEq, Repr

/-! ## backupService (translated from the source) -/

/-- The manifest file name constant. -/
def snapshotManifestFileName : String := "snapshot.manifest.json"

/-- Assoc-list lookup for the Map of location storage folders. -/
def lookupAssoc (l : List (String × String)) (k : String) : Option String :=
  (l.find? (fun e => e.1 == k)).map (·.2)

/-- normalizePathForKey: path.resolve(path.normalize(p)), without the win32
lower-casing (the posix model has no case folding). -/
def normalizePathForKey (p : String) : String := pathResolve [pathNormalize p]

/-- String.prototype.endsWith. -/
def strEndsWith (s suf : String) : Bool :=
  charsStartWith s.toList.reverse suf.toList.reverse

/-- assertPathWithinRoot: normalize both operands, then accept exactly when
the target equals the root or extends it past a separator; otherwise throw
the path-escape error. -/
def assertPathWithinRoot (rootPath targetPath context : String) : Except String Unit :=
  let normalizedRoot := normalizePathForKey rootPath
  let normalizedTarget := normalizePathForKey targetPath
  let normalizedRootWithSeparator :=
    if strEndsWith normalizedRoot "/" then normalizedRoot else normalizedRoot ++ "/"
  if normalizedTarget == normalizedRoot ||
     strStartsWith normalizedTarget normalizedRootWithSeparator then Except.ok ()
  else Except.error (context ++ " resolves outside its allowed root.")

/-- resolveSnapshotFileAbsolutePath: map the file's location through the
manifest's storage-folder table, resolve under the snapshot root and guard
against escapes. -/
def resolveSnapshotFileAbsolutePath (snapshotRoot : String) (file : SnapshotFile)
    (manifest : SnapshotManifestPayload) : Except String String :=
  match (manifest.locations.find? (fun e => e.1 == file.location_id)).map (·.2.storage_folder) with
  | none =>
    Except.error ("Snapshot manifest is missing storage mapping for location \"" ++
      file.location_id ++ "\".")
  | some storageFolder =>
    if (jsTrim storageFolder).length = 0 then
      Except.error ("Snapshot manifest is missing storage mapping for location \"" ++
        file.location_id ++ "\".")
    else
      let absolutePath := pathResolve [snapshotRoot, storageFolder, file.relative_path]
      match assertPathWithinRoot snapshotRoot absolutePath "Snapshot file path" with
      | Except.error e => Except.error e
      | Except.ok _ => Except.ok absolutePath

/-- computeSnapshotChecksum: hash of the rows sorted by relative_path
(localeCompare), rendered location_id:relative_path:checksum:size_bytes and
joined with "|". -/
def computeSnapshotChecksum (files : List SnapshotFile) : String :=
  let payload :=
    joinWith "|"
      ((jsSortBy (fun a b => localeCompareM a.relative_path b.relative_path) files).map
        (fun file => file.location_id ++ ":" ++ file.relative_path ++ ":" ++
          file.checksum ++ ":" ++ natToStr file.size_bytes))
  hashText payload

/-- Modelled from the spec §6 layout: storage.getSnapshotRoot is
storage_root/game_folder/Snapshots/snapshot_folder. -/
def getSnapshotRoot (storageRoot gameFolder snapshotFolder : String) : String :=
  pathJoin [storageRoot, gameFolder, "Snapshots", snapshotFolder]

/-- Collapse whitespace runs to single spaces. -/
def collapseSpacesAux : List Char → Bool → List Char
  | [], _ => []
  | c :: rest, prevSpace =>
    if isSpaceChar c then
      if prevSpace then collapseSpacesAux rest true
      else ' ' :: collapseSpacesAux rest true
    else c :: collapseSpacesAux rest false

/-- Modelled from the spec §4.4: storage.toSafeGameFolderName strips
filesystem-reserved characters, collapses whitespace, and truncates to a
safe length (64 here). -/
def toSafeGameFolderName (s : String) : String :=
  let reserved : List Char := ['<', '>', ':', '"', '/', '\\', '|', '?', '*']
  let kept := s.toList.filter (fun c => ¬(reserved.contains c) ∧ 31 < c.toNat)
  String.mk ((jsTrim (String.mk (collapseSpacesAux kept false))).toList.take 64)

/-- Strip trailing forward and back slashes (the replace of /[\\/]+$/). -/
def trimTrailingSlashesBoth (s : String) : String :=
  String.mk ((s.toList.reverse.dropWhile (fun c => c = '/' ∨ c = '\\')).reverse)

/-- resolveLocationStorageFolderBase: sanitized basename of the location
path, with File/Folder fallbacks. -/
def resolveLocationStorageFolderBase (location : StoredSaveLocation) : String :=
  let trimmed := trimTrailingSlashesBoth location.path
  let name := pathBasename trimmed
  let fallback := match location.type with
    | .file => "File"
    | .folder => "Folder"
  let safe := toSafeGameFolderName (if name = "" then fallback else name)
  if safe.length > 0 then safe else fallback

/-- ensureUniqueFolderName's while-loop, fuel-driven; fuel larger than the
used-set suffices because successive candidates are pairwise distinct. -/
def ensureUniqueFolderNameAux (base : String) (used : List String) :
    String → Nat → Nat → String
  | candidate, _, 0 => candidate
  | candidate, suffix, f + 1 =>
    if used.contains (lowerStr candidate) then
      ensureUniqueFolderNameAux base used (base ++ " (" ++ natToStr suffix ++ ")") (suffix + 1) f
    else candidate

/-- ensureUniqueFolderName: append " (2)", " (3)", … until unused. -/
def ensureUniqueFolderName (base : String) (used : List String) : String :=
  ensureUniqueFolderNameAux base used base 2 (used.length + 1)

/-- buildLocationStorageFolders: per-location unique storage folder names,
in location order. -/
def buildLocationStorageFoldersAux :
    List StoredSaveLocation → List (String × String) → List String → List (String × String)
  | [], folders, _ => folders
  | location :: rest, folders, used =>
    let base := resolveLocationStorageFolderBase location
    let unique := ensureUniqueFolderName base used
    buildLocationStorageFoldersAux rest (folders ++ [(location.id, unique)])
      (used ++ [lowerStr unique])

/-- buildLocationStorageFolders. -/
def buildLocationStorageFolders (locations : List StoredSaveLocation) : List (String × String) :=
  buildLocationStorageFoldersAux locations [] []

/-- isDirectoryPath: exists and is a directory. -/
def isDirectoryPathW (w : World) (p : String) : Bool :=
  w.dirs.contains p ||
  w.files.any (fun e => strStartsWith e.1 (p ++ "/")) ||
  w.dirs.any (fun d => strStartsWith d (p ++ "/"))

/-- resolveUniqueSnapshotFolderName's while-loop, fuel-driven; candidates
are pairwise distinct so a fuel exceeding the number of directory entries
suffices by pigeonhole. -/
def resolveUniqueSnapshotFolderNameAux (w : World) (storageRoot gameFolder base : String) :
    String → Nat → Nat → String
  | candidate, _, 0 => candidate
  | candidate, suffix, f + 1 =>
    if isDirectoryPathW w (getSnapshotRoot storageRoot gameFolder candidate) then
      resolveUniqueSnapshotFolderNameAux w storageRoot gameFolder base
        (base ++ "_" ++ natToStr suffix) (suffix + 1) f
    else candidate

/-- resolveUniqueSnapshotFolderName: the formatted timestamp, suffixed _2,
_3, … until no directory with that name exists. -/
def resolveUniqueSnapshotFolderName (env : Env) (w : World)
    (storageRoot gameFolder createdAt : String) : String :=
  let base := env.formatTimestamp createdAt
  resolveUniqueSnapshotFolderNameAux w storageRoot gameFolder base base 2
    (w.dirs.length + w.files.length + 1)

/-- The "file"/"folder" strings of the manifest. -/
def locTypeToStr : LocationType → String
  | .file => "file"
  | .folder => "folder"

/-- The JSON document written by writeSnapshotManifest. -/
def manifestToJson (p : SnapshotManifestPayload) : JVal :=
  JVal.obj
    [("version", JVal.num 2),
     ("snapshot_id", JVal.str p.snapshot_id),
     ("created_at", JVal.str p.created_at),
     ("reason", JVal.str (reasonToStr p.reason)),
     ("locations", JVal.obj (p.locations.map (fun e =>
       (e.1, JVal.obj
         [("path", JVal.str e.2.path),
          ("type", JVal.str (locTypeToStr e.2.type)),
          ("auto_detected", JVal.bool e.2.auto_detected),
          ("enabled", JVal.bool e.2.enabled),
          ("storage_folder", JVal.str e.2.storage_folder)]))))]

/-- writeSnapshotManifest: record id, time, reason and the location →
storage-folder table next to the snapshot payload. -/
def writeSnapshotManifest (snapshotRoot : String) (snapshot : Snapshot)
    (locations : List StoredSaveLocation) (locationStorageFolders : List (String × String)) :
    M Unit :=
  let payload : SnapshotManifestPayload :=
    ⟨2, snapshot.id, snapshot.created_at, snapshot.reason,
      locations.map (fun location =>
        (location.id,
          ⟨location.path, location.type, location.auto_detected, location.enabled,
            (lookupAssoc locationStorageFolders location.id).getD location.id⟩))⟩
  M.modifyW (fun w =>
    writeFileW w (pathJoin [snapshotRoot, snapshotManifestFileName])
      (FileVal.jsonDoc (manifestToJson payload)))

/-- The reason field check of readSnapshotManifest. -/
def parseReasonField : Option JVal → Option SnapshotReason
  | some (JVal.str "auto") => some SnapshotReason.auto
  | some (JVal.str "manual") => some SnapshotReason.manual
  | some (JVal.str "pre-restore") => some SnapshotReason.preRestore
  | _ => none

/-- Object.entries on the manifest's locations field; null/absent/primitive
values are rejected, arrays enumerate by index (JS typeof semantics). -/
def manifestLocationsEntries : Option JVal → Option (List (String × JVal))
  | some (JVal.obj kvs) => some kvs
  | some (JVal.arr xs) => some ((xs.zip (List.range xs.length)).map (fun e => (natToStr e.2, e.1)))
  | _ => none

/-- Per-entry validation of a manifest location (invalid entries are
skipped, not fatal). -/
def normalizeManifestLocation (v : JVal) : Option SnapshotManifestLocation :=
  match jvalGet v "path" with
  | some (JVal.str path) =>
    match jvalGet v "type" with
    | some (JVal.str t) =>
      if t = "file" ∨ t = "folder" then
        match jvalGet v "auto_detected" with
        | some (JVal.bool autoDetected) =>
          match jvalGet v "enabled" with
          | some (JVal.bool enabled) =>
            match jvalGet v "storage_folder" with
            | some (JVal.str storageFolder) =>
              if (jsTrim storageFolder).length = 0 then none
              else
                some ⟨path, if t = "file" then LocationType.file else LocationType.folder,
                  autoDetected, enabled, jsTrim storageFolder⟩
            | _ => none
          | _ => none
        | _ => none
      else none
    | _ => none
  | _ => none

/-- readSnapshotManifest: read and validate the manifest; any missing file,
parse failure, wrong version, missing/invalid required field or unparsable
date yields null. -/
def readSnapshotManifestP (env : Env) (w : World) (snapshotRoot : String) :
    Option SnapshotManifestPayload :=
  let manifestPath := pathJoin [snapshotRoot, snapshotManifestFileName]
  match lookupFile w manifestPath with
  | none => none
  | some (FileVal.text _) => none
  | some (FileVal.jsonDoc parsed) =>
    match jvalGet parsed "version" with
    | some (JVal.num 2) =>
      match jvalGet parsed "snapshot_id" with
      | some (JVal.str snapshotId) =>
        if (jsTrim snapshotId).length = 0 then none
        else
          match jvalGet parsed "created_at" with
          | some (JVal.str createdAt) =>
            if (jsTrim createdAt).length = 0 then none
            else
              match parseReasonField (jvalGet parsed "reason") with
              | none => none
              | some reason =>
                match manifestLocationsEntries (jvalGet parsed "locations") with
                | none => none
                | some entries =>
                  let normalized := entries.foldl (fun acc e =>
                    match normalizeManifestLocation e.2 with
                    | none => acc
                    | some loc => acc ++ [(e.1, loc)]) []
                  match env.dateIso createdAt with
                  | none => none
                  | some iso => some ⟨2, jsTrim snapshotId, iso, reason, normalized⟩
          | _ => none
      | _ => none
    | _ => none

/-- deleteSnapshot: silently ignore unknown ids; attempt the directory
removal first and only then drop the rows, so a raised removal error leaves
the index untouched. -/
def deleteSnapshot (env : Env) (snapshotId : String) (log : Bool) : M Unit := fun w =>
  match w.snapshots.find? (fun s => s.id == snapshotId) with
  | none => (Except.ok (), w)
  | some snapshot =>
    match removeDirSafeM env snapshot.storage_path w with
    | (Except.error e, w2) => (Except.error e, w2)
    | (Except.ok _, w2) =>
      let w3 := persistDbW
        { w2 with
          snapshots := w2.snapshots.filter (fun s => !(s.id == snapshotId)),
          snapshotFiles := w2.snapshotFiles.filter (fun f => !(f.snapshot_id == snapshotId)) }
      if log then (Except.ok (), logEventW w3 (some snapshot.game_id) EventType.backup "Snapshot deleted.")
      else (Except.ok (), w3)

/-- The for-loop of applyRetentionPolicy. -/
def deleteSnapshotsLoop (env : Env) : List Snapshot → M Unit
  | [] => pure ()
  | snapshot :: rest => do
    deleteSnapshot env snapshot.id false
    deleteSnapshotsLoop env rest

/-- applyRetentionPolicy: keep the newest max(1, retention_count) snapshots
of the game by created_at descending; delete the rest without individual
log entries. -/
def applyRetentionPolicy (env : Env) (settings : Settings) (gameId : String) : M Unit := do
  let w ← M.get
  let retentionCount := max 1 settings.retentionCount
  let snapshots :=
    jsSortBy (fun left right => localeCompareM right.created_at left.created_at)
      (w.snapshots.filter (fun s => s.game_id == gameId))
  let toRemove := snapshots.drop retentionCount
  deleteSnapshotsLoop env toRemove

/-- listFilesForLocation: single file for file locations, recursive walk for
folder locations. -/
def listFilesForLocation (w : World) (location : StoredSaveLocation) : List String :=
  match location.type with
  | .file => [location.path]
  | .folder => walkFiles w location.path

/-- The inner per-file loop of backupGame: copy, stat, hash, record. -/
def backupFilesLoop (env : Env) (location : StoredSaveLocation)
    (locationStorageFolders : List (String × String)) (snapshotRoot snapshotId : String) :
    List String → List SnapshotFile × Nat × Nat → M (List SnapshotFile × Nat × Nat)
  | [], acc => pure acc
  | filePath :: rest, (snapshotFiles, totalSize, warnings) => do
    let relativePath :=
      match location.type with
      | .file => pathBasename filePath
      | .folder => pathRelative location.path filePath
    let locationFolder := (lookupAssoc locationStorageFolders location.id).getD location.id
    let destPath := pathJoin [snapshotRoot, locationFolder, relativePath]
    copyFileWithRetries env filePath destPath 4
    let size ← statSizeM destPath
    let checksum ← hashFileM destPath
    let fileId ← freshUuidM
    backupFilesLoop env location locationStorageFolders snapshotRoot snapshotId rest
      (snapshotFiles ++ [⟨fileId, snapshotId, location.id, relativePath, size, checksum⟩],
        totalSize + size, warnings)

/-- The per-location loop of backupGame: missing locations log a warning and
are skipped; present ones have their files copied. -/
def backupLocationsLoop (env : Env) (gameId : String)
    (locationStorageFolders : List (String × String)) (snapshotRoot snapshotId : String) :
    List StoredSaveLocation → List SnapshotFile × Nat × Nat → M (List SnapshotFile × Nat × Nat)
  | [], acc => pure acc
  | location :: rest, (snapshotFiles, totalSize, warnings) => do
    let w ← M.get
    if fsExists w location.path = false then do
      M.modifyW (fun w => logEventW w (some gameId) EventType.error
        ("Save location missing: " ++ location.path))
      backupLocationsLoop env gameId locationStorageFolders snapshotRoot snapshotId rest
        (snapshotFiles, totalSize, warnings + 1)
    else do
      let files := listFilesForLocation w location
      let acc2 ← backupFilesLoop env location locationStorageFolders snapshotRoot snapshotId files
        (snapshotFiles, totalSize, warnings)
      backupLocationsLoop env gameId locationStorageFolders snapshotRoot snapshotId rest acc2

/-- The body of backupGame's try block (everything between ensureDir and the
returned snapshot). -/
def backupGameTryBlock (env : Env) (settings : Settings) (gameId : String)
    (reason : SnapshotReason) (skipRetention : Bool)
    (snapshotId createdAt snapshotRoot : String) : M (Option Snapshot) := do
  M.modifyW (fun w => ensureDirW w snapshotRoot)
  let w ← M.get
  let locations := (listSaveLocationsW w gameId).filter (fun loc => loc.enabled)
  let locationStorageFolders := buildLocationStorageFolders locations
  if locations.isEmpty then do
    M.modifyW (fun w => updateGameStatusW w gameId GameStatus.warning)
    M.modifyW (fun w => logEventW w (some gameId) EventType.error
      "Backup skipped: no enabled save locations.")
    pure none
  else do
    let (snapshotFiles, totalSize, warnings) ←
      backupLocationsLoop env gameId locationStorageFolders snapshotRoot snapshotId locations
        ([], 0, 0)
    if snapshotFiles.isEmpty then do
      M.modifyW (fun w => updateGameStatusW w gameId GameStatus.warning)
      M.modifyW (fun w => logEventW w (some gameId) EventType.error
        "Backup skipped: no files found in enabled save locations.")
      removeDirSafeM env snapshotRoot
      pure none
    else do
      let snapshot : Snapshot :=
        ⟨snapshotId, gameId, createdAt, totalSize, computeSnapshotChecksum snapshotFiles,
          snapshotRoot, reason⟩
      writeSnapshotManifest snapshotRoot snapshot locations locationStorageFolders
      M.modifyW (fun w =>
        { w with snapshots := w.snapshots ++ [snapshot],
                 snapshotFiles := w.snapshotFiles ++ snapshotFiles })
      M.modifyW persistDbW
      (if skipRetention then pure () else applyRetentionPolicy env settings gameId)
      M.modifyW (fun w => updateGameStatusW w gameId
        (if 0 < warnings then GameStatus.warning else GameStatus.prot))
      M.modifyW (fun w => logEventW w (some gameId) EventType.backup
        ("Snapshot created (" ++ reasonToStr reason ++ ")."))
      pure (some snapshot)

/-- Drop a game from the in-flight set (the finally block). -/
def removeInFlight (w : World) (gameId : String) : World :=
  { w with inFlight := w.inFlight.filter (fun g => !(g == gameId)) }

/-- backupGame: per-game mutual exclusion via the in-flight set, then the
try/catch/finally around the snapshot build; the catch sets warning status,
logs, rolls the directory back and rethrows. -/
def backupGame (env : Env) (settings : Settings) (gameId : String) (reason : SnapshotReason)
    (skipRetention : Bool) : M (Option Snapshot) := fun w =>
  if w.inFlight.contains gameId then (Except.ok none, w)
  else
    let w := { w with inFlight := w.inFlight ++ [gameId] }
    match getStoredGameById w gameId with
    | none => (Except.error "Game not found", removeInFlight w gameId)
    | some game =>
      let (snapshotId, w) := freshUuid w
      let createdAt := w.now
      let snapshotFolder :=
        resolveUniqueSnapshotFolderName env w settings.storageRoot game.folder_name createdAt
      let snapshotRoot := getSnapshotRoot settings.storageRoot game.folder_name snapshotFolder
      match backupGameTryBlock env settings gameId reason skipRetention snapshotId createdAt
        snapshotRoot w with
      | (Except.ok v, w2) => (Except.ok v, removeInFlight w2 gameId)
      | (Except.error e, w2) =>
        let w3 := logEventW (updateGameStatusW w2 gameId GameStatus.warning) (some gameId)
          EventType.error ("Backup failed: " ++ e)
        match removeDirSafeM env snapshotRoot w3 with
        | (Except.ok _, w4) => (Except.error e, removeInFlight w4 gameId)
        | (Except.error e2, w4) => (Except.error e2, removeInFlight w4 gameId)

/-- The per-file loop of restoreSnapshot: skip detached/disabled locations
and missing sources; guard both the source and the destination paths before
copying. -/
def restoreFilesLoop (env : Env) (saveLocations : List StoredSaveLocation) (snapshot : Snapshot)
    (manifest : SnapshotManifestPayload) : List SnapshotFile → M Unit
  | [] => pure ()
  | file :: rest => do
    match saveLocations.find? (fun loc => loc.id == file.location_id) with
    | none => restoreFilesLoop env saveLocations snapshot manifest rest
    | some location =>
      if location.enabled = false then restoreFilesLoop env saveLocations snapshot manifest rest
      else
        match resolveSnapshotFileAbsolutePath snapshot.storage_path file manifest with
        | Except.error e => M.throw e
        | Except.ok sourcePath => do
          let w ← M.get
          if fsExists w sourcePath = false then
            restoreFilesLoop env saveLocations snapshot manifest rest
          else do
            let destRoot :=
              match location.type with
              | .file => pathDirname location.path
              | .folder => location.path
            let destPath := pathResolve [destRoot, file.relative_path]
            match assertPathWithinRoot destRoot destPath "Restore destination path" with
            | Except.error e => M.throw e
            | Except.ok _ => do
              copyFileWithRetries env sourcePath destPath 3
              restoreFilesLoop env saveLocations snapshot manifest rest

/-- restoreSnapshot: look up the snapshot, validate the manifest, demand a
pre-restore safety snapshot (null blocks the restore), then replay the files
to their origin locations. -/
def restoreSnapshot (env : Env) (settings : Settings) (snapshotId : String) : M Unit := do
  let w ← M.get
  match w.snapshots.find? (fun s => s.id == snapshotId) with
  | none => M.throw "Snapshot not found"
  | some snapshot => do
    let gameId := snapshot.game_id
    let saveLocations := listSaveLocationsW w gameId
    let files := w.snapshotFiles.filter (fun f => f.snapshot_id == snapshotId)
    match readSnapshotManifestP env w snapshot.storage_path with
    | none => M.throw "Snapshot manifest is missing or invalid."
    | some manifest => do
      let safetySnapshot ← backupGame env settings gameId SnapshotReason.preRestore true
      match safetySnapshot with
      | none => M.throw "Restore blocked: failed to create safety backup before restore."
      | some _ => do
        restoreFilesLoop env saveLocations snapshot manifest files
        M.modifyW (fun w => logEventW w (some gameId) EventType.restore
          ("Snapshot restored (" ++ snapshot.created_at ++ ")."))

/-- The per-file loop of verifySnapshot, with the list of file paths probed
(existsSync / hashFile) returned as an explicit read trace. -/
def verifyFilesLoop (w : World) (storagePath : String) (manifest : SnapshotManifestPayload) :
    List SnapshotFile → Nat → List String → Except String Nat × List String
  | [], issues, trace => (Except.ok issues, trace)
  | file :: rest, issues, trace =>
    match resolveSnapshotFileAbsolutePath storagePath file manifest with
    | Except.error e => (Except.error e, trace)
    | Except.ok absolutePath =>
      let trace2 := trace ++ [absolutePath]
      if fsExists w absolutePath = false then
        verifyFilesLoop w storagePath manifest rest (issues + 1) trace2
      else
        match hashFileP w absolutePath with
        | Except.error e => (Except.error e, trace2)
        | Except.ok checksum =>
          verifyFilesLoop w storagePath manifest rest
            (if checksum == file.checksum then issues else issues + 1) trace2

/-- verifySnapshot: recompute every file's hash under the guarded snapshot
root and count mismatches and missing files. -/
def verifySnapshot (env : Env) (snapshotId : String) : M VerifyResult := fun w =>
  match w.snapshots.find? (fun s => s.id == snapshotId) with
  | none => (Except.error "Snapshot not found", w)
  | some snapshot =>
    let files := w.snapshotFiles.filter (fun f => f.snapshot_id == snapshotId)
    match readSnapshotManifestP env w snapshot.storage_path with
    | none => (Except.error "Snapshot manifest is missing or invalid.", w)
    | some manifest =>
      match (verifyFilesLoop w snapshot.storage_path manifest files 0 []).1 with
      | Except.error e => (Except.error e, w)
      | Except.ok issues => (Except.ok ⟨issues == 0, issues⟩, w)

/-! ## catalogSaveDetectionService (translated from the source)

The detection service runs on a non-win32 platform model (consistent with
the posix path model): the default executable-metadata and registry adapters
return nothing, wildcard matching is case-sensitive, and candidate merging
does not fold case.  Tests inject adapters exactly as the source's
CatalogDetectionAdapters allows. -/

/-- Detection terminal status. -/
inductive DetectionStatus where
  | catalogMissing
  | catalogInvalid
  | noMatch
  | noWindowsLocations
  | noValidCandidates
  | matched
deriving DecidableEq, Repr

/-- A save-location rule of a catalog entry. -/
structure CatalogLocationRule where
  system : String
  location : String
deriving DecidableEq, Repr

/-- A parsed catalog entry. -/
structure ParsedCatalogEntry where
  title : String
  saveLocations : List CatalogLocationRule
deriving DecidableEq, Repr

/-- Executable version metadata. -/
structure ExeMetadata where
  productName : Option String
  fileDescription : Option String
deriving DecidableEq, Repr

/-- Where a candidate path came from. -/
inductive CandidateSource where
  | filesystem
  | registry
deriving DecidableEq, Repr

/-- A scored candidate save path. -/
structure CatalogSavePathCandidate where
  path : String
  score : JsNum
  source : CandidateSource
  rawLocation : String
  reasons : List String
deriving DecidableEq, Repr

/-- A title with its similarity score (debug info). -/
structure CatalogTitleMatchScore where
  title : String
  score : JsNum
deriving DecidableEq, Repr

/-- The debug envelope carried through detection. -/
structure CatalogSaveDetectionDebugInfo where
  exeProductName : Option String
  exeFileDescription : Option String
  queryStrings : List String
  topTitleMatches : List CatalogTitleMatchScore
  windowsLocations : List String
  currentLocation : Option String
  expandedPaths : List String
  checkedPathSamples : List String
  selectedCandidatePath : Option String
  selectedCandidateScore : Option JsNum
  selectedCandidateReasons : List String
deriving DecidableEq, Repr

/-- A progress payload delivered to the callback. -/
structure CatalogSaveDetectionProgress where
  percent : JsNum
  processed : JsNum
  total : JsNum
  message : String
  matchedTitle : Option String
  debug : Option CatalogSaveDetectionDebugInfo
deriving DecidableEq, Repr

/-- The detection result. -/
structure CatalogSaveDetectionResult where
  status : DetectionStatus
  matchedTitle : Option String
  matchScore : JsNum
  titleAmbiguous : Bool
  candidates : List CatalogSavePathCandidate
  metadata : Option ExeMetadata
  warnings : List String
  debug : Option CatalogSaveDetectionDebugInfo
deriving DecidableEq, Repr

/-- The detection input; the progress callback may throw (Except.error). -/
structure CatalogSaveDetectionInput where
  catalogPath : String
  gameName : String
  exePath : String
  installPath : String
  onProgress : Option (CatalogSaveDetectionProgress → Except String Unit)

/-- A catalog cache entry (module-level Map state, threaded explicitly). -/
structure CatalogCacheEntry where
  mtimeMs : Int
  entries : List ParsedCatalogEntry
deriving DecidableEq, Repr

/-- The catalog cache. -/
abbrev CatalogCache : Type := List (String × CatalogCacheEntry)

/-- A directory entry (fs.Dirent model: file or directory). -/
structure DirEnt where
  name : String
  isDir : Bool
deriving DecidableEq, Repr

/-- fs.statSync's relevant outcome. -/
inductive StatKind where
  | file
  | dir
  | other
deriving DecidableEq, Repr

/-- Environment oracles for detection: the filesystem as seen through
existsSync / readdirSync / statSync (none models a thrown error), the
catalog file's mtime and parsed JSON content, raw text file reads, the
process environment, and the registry. -/
structure DetectEnv where
  pathExists : String → Bool
  readdir : String → Option (List DirEnt)
  statKind : String → Option StatKind
  catalogMtime : String → Option Int
  catalogJson : String → Option JVal
  fileText : String → Option String
  envVars : List (String × String)

/-- The injectable adapters of the detection service. -/
structure CatalogDetectionAdapters where
  readExeMetadata : Option (String → Option ExeMetadata) := none
  readRegistryValues : Option (String → List String) := none
  listSteamLibraries : Option (List String) := none
  loadCatalogEntries : Option (String → Option (List ParsedCatalogEntry)) := none

/-- The per-rule resolution context. -/
structure ResolveContext where
  installPath : String
  gameName : String
  steamLibraries : List String

/-- The save-like file extensions. -/
def saveFileExtensions : List String :=
  [".sav", ".save", ".dat", ".profile", ".json", ".ini", ".cfg"]

/-- JS Set-based exact dedupe, keeping first occurrences in order. -/
def dedupeExact : List String → List String :=
  let rec go : List String → List String → List String
    | [], out => out
    | v :: rest, out => if out.contains v then go rest out else go rest (out ++ [v])
  fun l => go l []

/-- dedupeStrings: trim, drop empties, dedupe case-insensitively keeping the
first trimmed spelling. -/
def dedupeStringsAux : List String → List String → List String → List String
  | [], _, out => out
  | v :: rest, seen, out =>
    let trimmed := jsTrim v
    if trimmed = "" then dedupeStringsAux rest seen out
    else
      let key := lowerStr trimmed
      if seen.contains key then dedupeStringsAux rest seen out
      else dedupeStringsAux rest (seen ++ [key]) (out ++ [trimmed])

/-- dedupeStrings. -/
def dedupeStrings (values : List String) : List String := dedupeStringsAux values [] []

/-- A JS word character, for the \b boundaries of the title normalizer. -/
def isWordChar (c : Char) : Bool :=
  (97 ≤ c.toNat ∧ c.toNat ≤ 122) ∨ (65 ≤ c.toNat ∧ c.toNat ≤ 90) ∨
  (48 ≤ c.toNat ∧ c.toNat ≤ 57) ∨ c = '_'

/-- Global word-bounded replace (the \bword\b regexes), fuel-driven; the
scan consumes at least one character per step so fuel = length suffices. -/
def replaceWordAllF (fuel : Nat) (w r : List Char) (prev : Option Char) (s : List Char) :
    List Char :=
  match fuel, s with
  | 0, s => s
  | _ + 1, [] => []
  | f + 1, ch :: rest =>
    let here := ch :: rest
    let boundaryBefore := match prev with
      | none => true
      | some c => !(isWordChar c)
    let after := here.drop w.length
    let boundaryAfter := match after with
      | [] => true
      | c :: _ => !(isWordChar c)
    if charsStartWith here w && boundaryBefore && boundaryAfter then
      r ++ replaceWordAllF f w r (some (w.getLastD ch)) after
    else ch :: replaceWordAllF f w r (some ch) rest

/-- Word-bounded global replace on strings. -/
def replaceWordAll (w r s : String) : String :=
  String.mk (replaceWordAllF s.toList.length w.toList r.toList none s.toList)

/-- Global plain substring replace, fuel-driven. -/
def replaceSubAllF (fuel : Nat) (w r : List Char) (s : List Char) : List Char :=
  match fuel, s with
  | 0, s => s
  | _ + 1, [] => []
  | f + 1, ch :: rest =>
    let here := ch :: rest
    if charsStartWith here w ∧ 0 < w.length then
      r ++ replaceSubAllF f w r (here.drop w.length)
    else ch :: replaceSubAllF f w r rest

/-- Global plain substring replace on strings. -/
def replaceSubAll (w r s : String) : String :=
  String.mk (replaceSubAllF s.toList.length w.toList r.toList s.toList)

/-- Case-insensitive comparison of character runs. -/
def charsStartWithCI (s p : List Char) : Bool :=
  charsStartWith (s.map lowerChar) (p.map lowerChar)

/-- Case-insensitive global literal replace (the /token/gi replaces), fuel
driven. -/
def replaceSubAllCIF (fuel : Nat) (w r : List Char) (s : List Char) : List Char :=
  match fuel, s with
  | 0, s => s
  | _ + 1, [] => []
  | f + 1, ch :: rest =>
    let here := ch :: rest
    if charsStartWithCI here w ∧ 0 < w.length then
      r ++ replaceSubAllCIF f w r (here.drop w.length)
    else ch :: replaceSubAllCIF f w r rest

/-- Case-insensitive global literal replace on strings. -/
def replaceSubAllCI (w r s : String) : String :=
  String.mk (replaceSubAllCIF s.toList.length w.toList r.toList s.toList)

/-- The Roman-numeral word substitutions of normalizeTitle, in source
order. -/
def romanPairs : List (String × String) :=
  [("xx", "20"), ("xix", "19"), ("xviii", "18"), ("xvii", "17"), ("xvi", "16"),
   ("xv", "15"), ("xiv", "14"), ("xiii", "13"), ("xii", "12"), ("xi", "11"),
   ("x", "10"), ("ix", "9"), ("viii", "8"), ("vii", "7"), ("vi", "6"),
   ("v", "5"), ("iv", "4"), ("iii", "3"), ("ii", "2"), ("i", "1")]

/-- Lowercase letter or digit (the [^a-z0-9] complement after lowering). -/
def isLowerAlnum (c : Char) : Bool :=
  (97 ≤ c.toNat ∧ c.toNat ≤ 122) ∨ (48 ≤ c.toNat ∧ c.toNat ≤ 57)

/-- Collapse every run of non-alphanumerics to a single space. -/
def collapseNonAlnumAux : List Char → Bool → List Char
  | [], _ => []
  | c :: rest, prevSpace =>
    if isLowerAlnum c then c :: collapseNonAlnumAux rest false
    else if prevSpace then collapseNonAlnumAux rest true
    else ' ' :: collapseNonAlnumAux rest true

/-- normalizeTitle: lowercase, Roman numerals to decimal, phrase
abbreviations, collapse non-alphanumerics to single spaces, trim.  (The
final \s+ collapse of the source is a no-op after the non-alphanumeric
collapse.) -/
def normalizeTitle (value : String) : String :=
  let lowered := lowerStr value
  let romanNormalized := romanPairs.foldl (fun s p => replaceWordAll p.1 p.2 s) lowered
  let phrased := replaceSubAll "game of the year" "goty"
    (replaceSubAll "definitive edition" "de" romanNormalized)
  jsTrim (String.mk (collapseNonAlnumAux phrased.toList true))

/-- scoreTitleSimilarity: Jaccard index of the normalized token sets plus a
0.15 containment bonus, capped at 1. -/
def scoreTitleSimilarity (left right : String) : JsNum :=
  let leftNorm := normalizeTitle left
  let rightNorm := normalizeTitle right
  if leftNorm = "" ∨ rightNorm = "" then JsNum.ofNat 0
  else if leftNorm = rightNorm then JsNum.ofNat 1
  else
    let leftTokens := (splitStr (fun c => c = ' ') leftNorm).filter (fun t => ¬(t = ""))
    let rightTokens := (splitStr (fun c => c = ' ') rightNorm).filter (fun t => ¬(t = ""))
    if leftTokens = [] ∨ rightTokens = [] then JsNum.ofNat 0
    else
      let leftSet := dedupeExact leftTokens
      let rightSet := dedupeExact rightTokens
      let overlap := (leftSet.filter (fun token => rightSet.contains token)).length
      let union := (dedupeExact (leftSet ++ rightSet)).length
      let jaccard := if 0 < union then JsNum.fracNat overlap union else JsNum.ofNat 0
      let containsBonus :=
        if strContains leftNorm rightNorm || strContains rightNorm leftNorm then
          (⟨15, 100⟩ : JsNum)
        else JsNum.ofNat 0
      JsNum.minJ (JsNum.ofNat 1) (jaccard.add containsBonus)

/-- First index of a character, if any. -/
def findCharIdx (ch : Char) : List Char → Option Nat
  | [] => none
  | c :: rest =>
    if c = ch then some 0
    else match findCharIdx ch rest with
      | none => none
      | some i => some (i + 1)

/-- ASCII letter check ([A-Za-z]). -/
def isAsciiLetter (c : Char) : Bool :=
  (65 ≤ c.toNat ∧ c.toNat ≤ 90) ∨ (97 ≤ c.toNat ∧ c.toNat ≤ 122)

/-- Try the location-splitter's start pattern at this position
(alternatives in regex order: angle token, %env%, registry roots with a
backslash, drive letter) and return the match length. -/
def locationMatchLenAt (cs : List Char) : Option Nat :=
  match cs with
  | '<' :: rest =>
    (match findCharIdx '>' rest with
     | some j => if 0 < j then some (j + 2) else locationMatchLenAtTail cs
     | none => locationMatchLenAtTail cs)
  | '%' :: rest =>
    (match findCharIdx '%' rest with
     | some j => if 0 < j then some (j + 2) else locationMatchLenAtTail cs
     | none => locationMatchLenAtTail cs)
  | _ => locationMatchLenAtTail cs
where
  /-- The registry-root and drive-letter alternatives. -/
  locationMatchLenAtTail (cs : List Char) : Option Nat :=
    if charsStartWithCI cs "hkey_current_user\\".toList then some 18
    else if charsStartWithCI cs "hkey_local_machine\\".toList then some 19
    else if charsStartWithCI cs "hkcu\\".toList then some 5
    else if charsStartWithCI cs "hklm\\".toList then some 5
    else match cs with
      | a :: ':' :: '\\' :: _ => if isAsciiLetter a then some 3 else none
      | _ => none

/-- matchAll over the start pattern: scan left to right, consuming each
match whole (fuel = length suffices as every step consumes ≥ 1). -/
def locationMatchStarts : Nat → List Char → Nat → List Nat
  | 0, _, _ => []
  | _ + 1, [], _ => []
  | f + 1, c :: rest, pos =>
    match locationMatchLenAt (c :: rest) with
    | some len => pos :: locationMatchStarts f ((c :: rest).drop len) (pos + len)
    | none => locationMatchStarts f rest (pos + 1)

/-- Replace \r\n and \n with a single space (the /\r?\n/g replace). -/
def replaceNewlines : List Char → List Char
  | [] => []
  | '\r' :: '\n' :: rest => ' ' :: replaceNewlines rest
  | '\n' :: rest => ' ' :: replaceNewlines rest
  | c :: rest => c :: replaceNewlines rest

/-- May a start marker follow this character ([\s,;|])? -/
def isSplitSeparator (c : Char) : Bool :=
  isSpaceChar c ∨ c = ',' ∨ c = ';' ∨ c = '|'

/-- Leading/trailing [,;|]+ strippers. -/
def stripLeadingPunct (cs : List Char) : List Char :=
  cs.dropWhile (fun c => c = ',' ∨ c = ';' ∨ c = '|')

/-- Strip trailing [,;|]+. -/
def stripTrailingPunct (cs : List Char) : List Char :=
  (stripLeadingPunct cs.reverse).reverse

/-- Cut the normalized rule at the retained start indices. -/
def segmentsFromStarts (cs : List Char) : List Nat → List String
  | [] => []
  | s :: rest =>
    let e := rest.headD cs.length
    let segment :=
      jsTrim (String.mk (stripTrailingPunct (stripLeadingPunct
        (jsTrim (String.mk ((cs.drop s).take (e - s)))).toList)))
    if segment = "" then segmentsFromStarts cs rest
    else segment :: segmentsFromStarts cs rest

/-- splitCompositeLocation: split a composite rule at start markers that sit
at the beginning or after whitespace/commas/semicolons/pipes; with at most
one marker, fall back to splitting on ;/newlines. -/
def splitCompositeLocation (location : String) : List String :=
  let normalized := jsTrim (String.mk (replaceNewlines location.toList))
  if normalized = "" then []
  else
    let cs := normalized.toList
    let starts := locationMatchStarts cs.length cs 0
    let uniqueStarts := starts.filter (fun idx =>
      idx == 0 || (match cs.get? (idx - 1) with
        | some prev => isSplitSeparator prev
        | none => false))
    if uniqueStarts.length ≤ 1 then
      let simpleSplit :=
        ((splitStr (fun c => c = ';' ∨ c = '\n' ∨ c = '\r') normalized).map jsTrim).filter
          (fun item => ¬(item = ""))
      if 1 < simpleSplit.length then simpleSplit else [normalized]
    else
      let segments := segmentsFromStarts cs uniqueStarts
      if segments = [] then [normalized] else segments

/-- Is the parsed JSON value a non-null object in the typeof sense (object
or array)? -/
def jvalIsObjectTruthy : JVal → Bool
  | JVal.obj _ => true
  | JVal.arr _ => true
  | _ => false

/-- normalizeCatalogLocations: trim system/location, split composite
locations, drop incomplete pairs, and dedupe case-insensitively. -/
def normalizeCatalogLocations (input : Option JVal) : List CatalogLocationRule :=
  match input with
  | some (JVal.arr items) =>
    let expanded := (items.filter jvalIsObjectTruthy).foldl (fun acc item =>
      let system := match jvalGet item "system" with
        | some (JVal.str s) => jsTrim s
        | _ => ""
      let rawLocation := match jvalGet item "location" with
        | some (JVal.str s) => jsTrim s
        | _ => ""
      acc ++ (splitCompositeLocation rawLocation).map (fun location =>
        CatalogLocationRule.mk system location)) []
    let filtered := expanded.filter (fun item =>
      0 < item.system.length ∧ 0 < item.location.length)
    dedupeRules filtered [] []
  | _ => []
where
  /-- The seen-set dedupe over system|location keys. -/
  dedupeRules : List CatalogLocationRule → List String → List CatalogLocationRule →
      List CatalogLocationRule
    | [], _, out => out
    | item :: rest, seen, out =>
      let key := lowerStr item.system ++ "|" ++ lowerStr item.location
      if seen.contains key then dedupeRules rest seen out
      else dedupeRules rest (seen ++ [key]) (out ++ [item])

/-- getCatalogGamesArray: null for any non-object root (bare arrays
included); otherwise the games field when it is an array. -/
def getCatalogGamesArray (input : JVal) : Option (List JVal) :=
  match input with
  | JVal.obj _ =>
    (match jvalGet input "games" with
     | some (JVal.arr gs) => some gs
     | _ => none)
  | _ => none

/-- Map.set on the catalog cache. -/
def cacheUpsert (cache : CatalogCache) (key : String) (entry : CatalogCacheEntry) :
    CatalogCache :=
  if (List.find? (fun e => e.1 == key) cache).isSome then
    List.map (fun e => if e.1 == key then (key, entry) else e) cache
  else cache ++ [(key, entry)]

/-- The parse branch of loadCatalogEntries (read, parse, normalize and
cache; a read/parse throw yields the empty list without caching). -/
def loadCatalogEntriesFresh (env : DetectEnv) (catalogPath cacheKey : String) (mtimeMs : Int)
    (cache : CatalogCache) : Option (List ParsedCatalogEntry) × CatalogCache :=
  match env.catalogJson catalogPath with
  | none => (some [], cache)
  | some parsed =>
    match getCatalogGamesArray parsed with
    | none => (some [], cache)
    | some games =>
      let entries :=
        ((games.filter jvalIsObjectTruthy).map (fun item =>
          ParsedCatalogEntry.mk
            (match jvalGet item "title" with
             | some (JVal.str t) => jsTrim t
             | _ => "")
            (normalizeCatalogLocations (jvalGet item "save_game_data_locations")))).filter
          (fun entry => 0 < entry.title.length)
      (some entries, cacheUpsert cache cacheKey ⟨mtimeMs, entries⟩)

/-- loadCatalogEntries: adapter injection, existence and stat checks, the
mtime-keyed cache, then the parse branch. -/
def loadCatalogEntries (env : DetectEnv) (catalogPath : String)
    (adapters : CatalogDetectionAdapters) (cache : CatalogCache) :
    Option (List ParsedCatalogEntry) × CatalogCache :=
  match adapters.loadCatalogEntries with
  | some f => (f catalogPath, cache)
  | none =>
    if env.pathExists catalogPath = false then (none, cache)
    else
      match env.catalogMtime catalogPath with
      | none => (none, cache)
      | some mtimeMs =>
        let cacheKey := pathResolve [catalogPath]
        match (List.find? (fun e => e.1 == cacheKey) cache).map (·.2) with
        | some cached =>
          if cached.mtimeMs = mtimeMs then (some cached.entries, cache)
          else loadCatalogEntriesFresh env catalogPath cacheKey mtimeMs cache
        | none => loadCatalogEntriesFresh env catalogPath cacheKey mtimeMs cache

/-- The payload clamping applied by reportProgress before invoking the
callback. -/
def clampProgress (payload : CatalogSaveDetectionProgress) : CatalogSaveDetectionProgress :=
  { payload with
    percent := JsNum.maxJ (JsNum.ofNat 0)
      (JsNum.minJ (JsNum.ofNat 100) (JsNum.ofInt payload.percent.roundJ)),
    processed := JsNum.maxJ (JsNum.ofNat 0) payload.processed,
    total := JsNum.maxJ (JsNum.ofNat 1) payload.total }

/-- reportProgress: clamp the payload and invoke the callback; a missing
callback is a no-op, and nothing catches a throwing callback. -/
def reportProgress (callback : Option (CatalogSaveDetectionProgress → Except String Unit))
    (payload : CatalogSaveDetectionProgress) : Except String Unit :=
  match callback with
  | none => Except.ok ()
  | some cb => cb (clampProgress payload)

/-- createDebugInfo. -/
def createDebugInfo : CatalogSaveDetectionDebugInfo :=
  ⟨none, none, [], [], [], none, [], [], none, none, []⟩

/-- pushUniqueWithLimit: append when non-empty, fresh, and under the cap. -/
def pushUniqueWithLimit (target : List String) (value : String) (limit : Nat) : List String :=
  if value = "" || target.contains value then target
  else if limit ≤ target.length then target
  else target ++ [value]

/-- The debug path-sample cap. -/
def maxDebugPathSamples : Nat := 40

/-- updateDebugPathSamples: record each normalized expansion and whether it
exists on disk, capped. -/
def updateDebugPathSamples (env : DetectEnv) (debug : CatalogSaveDetectionDebugInfo)
    (paths : List String) : CatalogSaveDetectionDebugInfo :=
  paths.foldl (fun debug rawPath =>
    let normalized := pathNormalize (jsTrim rawPath)
    if normalized = "" then debug
    else
      let d1 := { debug with
        expandedPaths := pushUniqueWithLimit debug.expandedPaths normalized maxDebugPathSamples }
      let existsLabel := if env.pathExists normalized then "exists" else "missing"
      { d1 with
        checkedPathSamples := pushUniqueWithLimit d1.checkedPathSamples
          (existsLabel ++ ": " ++ normalized) maxDebugPathSamples }) debug

/-- updateDebugSelectedCandidate: keep the best-scoring candidate, merging
reasons when the path repeats. -/
def updateDebugSelectedCandidate (debug : CatalogSaveDetectionDebugInfo)
    (candidate : CatalogSavePathCandidate) : CatalogSaveDetectionDebugInfo :=
  if debug.selectedCandidatePath = some candidate.path then
    { debug with
      selectedCandidateScore :=
        some (JsNum.maxJ (debug.selectedCandidateScore.getD (JsNum.ofNat 0)) candidate.score),
      selectedCandidateReasons :=
        dedupeStrings (debug.selectedCandidateReasons ++ candidate.reasons) }
  else
    match debug.selectedCandidateScore with
    | some existingScore =>
      if candidate.score.ltB existingScore then debug
      else
        { debug with
          selectedCandidatePath := some candidate.path,
          selectedCandidateScore := some candidate.score,
          selectedCandidateReasons := candidate.reasons }
    | none =>
      { debug with
        selectedCandidatePath := some candidate.path,
        selectedCandidateScore := some candidate.score,
        selectedCandidateReasons := candidate.reasons }

/-- Case-insensitive startsWith on strings. -/
def strStartsWithCI (s p : String) : Bool := charsStartWithCI s.toList p.toList

/-- isRegistryPath: does the trimmed value start with a registry root and a
backslash (case-insensitive)? -/
def isRegistryPath (value : String) : Bool :=
  let t := jsTrim value
  strStartsWithCI t "HKEY_CURRENT_USER\\" || strStartsWithCI t "HKEY_LOCAL_MACHINE\\" ||
  strStartsWithCI t "HKCU\\" || strStartsWithCI t "HKLM\\"

/-- normalizeRegistryPath: expand the HKCU/HKLM abbreviations. -/
def normalizeRegistryPath (value : String) : String :=
  let trimmed := jsTrim value
  if strStartsWithCI trimmed "HKCU\\" then
    "HKEY_CURRENT_USER" ++ String.mk (trimmed.toList.drop 4)
  else if strStartsWithCI trimmed "HKLM\\" then
    "HKEY_LOCAL_MACHINE" ++ String.mk (trimmed.toList.drop 4)
  else trimmed

/-- readRegistryValuesFromKey: the default adapter shells out to reg.exe
only on win32 and returns the empty list otherwise; the platform model here
is non-win32, so it returns []. -/
def readRegistryValuesFromKey (_registryKey : String) : List String := []

/-- readExeMetadataFromFile: the default adapter returns null on non-win32
hosts (the platform model here) before any PowerShell shell-out. -/
def readExeMetadataFromFile (_exePath : String) : Option ExeMetadata := none

/-- resolveEnvValue: exact environment lookup when non-empty, else the
first case-insensitive key with a truthy value. -/
def resolveEnvValue (env : DetectEnv) (name : String) : Option String :=
  let direct := (List.find? (fun e => e.1 == name) env.envVars).map (·.2)
  match direct with
  | some v =>
    if 0 < v.length then some v
    else resolveEnvValueCI env name
  | none => resolveEnvValueCI env name
where
  /-- The case-insensitive fallback scan over Object.entries. -/
  resolveEnvValueCI (env : DetectEnv) (name : String) : Option String :=
    let lower := lowerStr name
    (List.find? (fun e => lowerStr e.1 == lower && !(e.2 == "")) env.envVars).map (·.2)

/-- defaultSteamRoots: Steam under both ProgramFiles roots, deduped. -/
def defaultSteamRoots (env : DetectEnv) : List String :=
  let pf86 := resolveEnvValue env "ProgramFiles(x86)"
  let pf := resolveEnvValue env "ProgramFiles"
  let roots :=
    (match pf86 with
     | some v => [pathJoin [v, "Steam"]]
     | none => []) ++
    (match pf with
     | some v => [pathJoin [v, "Steam"]]
     | none => [])
  dedupeStrings roots

/-- Scan for the "path"-keyed VDF values ("path" \s* "value"), case
insensitively; fuel = length. -/
def scanVdfPathValues : Nat → List Char → List String
  | 0, _ => []
  | _ + 1, [] => []
  | f + 1, c :: rest =>
    let here := c :: rest
    if charsStartWithCI here "\"path\"".toList then
      let afterKey := (here.drop 6).dropWhile (fun ch => isSpaceChar ch)
      match afterKey with
      | '"' :: valueStart =>
        (match findCharIdx '"' valueStart with
         | some j =>
           if 0 < j then
             String.mk (valueStart.take j) :: scanVdfPathValues f (valueStart.drop (j + 1))
           else scanVdfPathValues f rest
         | none => scanVdfPathValues f rest)
      | _ => scanVdfPathValues f rest
    else scanVdfPathValues f rest

/-- Scan for the legacy numeric-keyed drive values ("digits" \s*
"X:\\..."); fuel = length. -/
def scanVdfLegacyValues : Nat → List Char → List String
  | 0, _ => []
  | _ + 1, [] => []
  | f + 1, '"' :: rest =>
    let digits := rest.takeWhile (fun ch => 48 ≤ ch.toNat ∧ ch.toNat ≤ 57)
    let afterDigits := rest.drop digits.length
    (match afterDigits with
     | '"' :: afterClose =>
       if digits.isEmpty then scanVdfLegacyValues f rest
       else
         let afterSpace := afterClose.dropWhile (fun ch => isSpaceChar ch)
         (match afterSpace with
          | '"' :: valueStart =>
            (match valueStart with
             | a :: ':' :: '\\' :: '\\' :: _ =>
               if isAsciiLetter a then
                 match findCharIdx '"' valueStart with
                 | some j =>
                   if 0 < j then
                     String.mk (valueStart.take j) :: scanVdfLegacyValues f (valueStart.drop (j + 1))
                   else scanVdfLegacyValues f rest
                 | none => scanVdfLegacyValues f rest
               else scanVdfLegacyValues f rest
             | _ => scanVdfLegacyValues f rest)
          | _ => scanVdfLegacyValues f rest)
     | _ => scanVdfLegacyValues f rest)
  | f + 1, _ :: rest => scanVdfLegacyValues f rest

/-- parseSteamLibraryFolders: both VDF scans, unescaping doubled
backslashes, trimmed and deduped. -/
def parseSteamLibraryFolders (raw : String) : List String :=
  let unescape := fun (v : String) => jsTrim (replaceSubAll "\\\\" "\\" v)
  let direct := (scanVdfPathValues raw.toList.length raw.toList).map unescape
  let legacy := (scanVdfLegacyValues raw.toList.length raw.toList).map unescape
  dedupeStrings ((direct ++ legacy).filter (fun v => ¬(v = "")))

/-- detectSteamLibraries: the default roots plus any libraries parsed from
each root's libraryfolders.vdf. -/
def detectSteamLibraries (env : DetectEnv) : List String :=
  let roots := defaultSteamRoots env
  roots.foldl (fun libraries root =>
    let filePath := pathJoin [root, "steamapps", "libraryfolders.vdf"]
    if env.pathExists filePath = false then libraries
    else
      match env.fileText filePath with
      | none => libraries
      | some raw =>
        (parseSteamLibraryFolders raw).foldl (fun libs entry =>
          let normalized := pathNormalize entry
          if libs.contains normalized then libs else libs ++ [normalized]) libraries)
    (dedupeExact roots)

/-- Match one wiki-style token at this position: two braces, optional
spaces, p| then the inner name (case-insensitive), optional spaces, two
closing braces; returns the consumed length. -/
def matchWikiTokenAt (cs : List Char) (inner : List Char) : Option Nat :=
  match cs with
  | '\x7b' :: '\x7b' :: rest =>
    let spaces1 := rest.takeWhile (fun ch => isSpaceChar ch)
    let afterSpaces1 := rest.drop spaces1.length
    if charsStartWithCI afterSpaces1 ('p' :: '|' :: inner) then
      let afterName := afterSpaces1.drop (2 + inner.length)
      let spaces2 := afterName.takeWhile (fun ch => isSpaceChar ch)
      let afterSpaces2 := afterName.drop spaces2.length
      match afterSpaces2 with
      | '\x7d' :: '\x7d' :: _ =>
        some (2 + spaces1.length + 2 + inner.length + spaces2.length + 2)
      | _ => none
    else none
  | _ => none

/-- Global replace of one wiki token (fuel = length). -/
def replaceWikiTokenF (fuel : Nat) (inner repl : List Char) (s : List Char) : List Char :=
  match fuel, s with
  | 0, s => s
  | _ + 1, [] => []
  | f + 1, c :: rest =>
    match matchWikiTokenAt (c :: rest) inner with
    | some len => repl ++ replaceWikiTokenF f inner repl ((c :: rest).drop len)
    | none => c :: replaceWikiTokenF f inner repl rest

/-- Global replace of one wiki token on strings. -/
def replaceWikiToken (inner repl s : String) : String :=
  String.mk (replaceWikiTokenF s.toList.length inner.toList repl.toList s.toList)

/-- normalizeTemplateSyntax: the wiki-style path tokens, in source order. -/
def normalizeTemplateSyntax (value : String) : String :=
  replaceWikiToken "steam" "<steam-folder>"
    (replaceWikiToken "documents" "%USERPROFILE%\\Documents"
      (replaceWikiToken "programfiles(x86)" "%PROGRAMFILES(X86)%"
        (replaceWikiToken "programfiles" "%PROGRAMFILES%"
          (replaceWikiToken "programdata" "%PROGRAMDATA%"
            (replaceWikiToken "localappdata" "%LOCALAPPDATA%"
              (replaceWikiToken "appdata" "%APPDATA%"
                (replaceWikiToken "userprofile" "%USERPROFILE%" value)))))))

/-- replaceTokenWithMany: Cartesian substitution of one case-insensitive
token over the replacement set (templates without the token pass through). -/
def replaceTokenWithMany (templates : List String) (token : String)
    (replacements : List String) : List String :=
  let nextReplacements := dedupeStrings (replacements.filter (fun item => 0 < (jsTrim item).length))
  if nextReplacements.isEmpty then templates
  else
    templates.foldl (fun output template =>
      if strContains (lowerStr template) (lowerStr token) = false then output ++ [template]
      else output ++ nextReplacements.map (fun replacement =>
        replaceSubAllCI token replacement template)) []

/-- expandEnvironmentVariables: replace %name% via the environment,
preserving unresolved variables (fuel = length). -/
def expandEnvVarsF (env : DetectEnv) : Nat → List Char → List Char
  | 0, s => s
  | _ + 1, [] => []
  | f + 1, '%' :: rest =>
    (match findCharIdx '%' rest with
     | some j =>
       if 0 < j then
         let name := String.mk (rest.take j)
         let repl := match resolveEnvValue env name with
           | some v => v.toList
           | none => '%' :: (rest.take j) ++ ['%']
         repl ++ expandEnvVarsF env f (rest.drop (j + 1))
       else '%' :: expandEnvVarsF env f rest
     | none => '%' :: expandEnvVarsF env f rest)
  | f + 1, c :: rest => c :: expandEnvVarsF env f rest

/-- expandEnvironmentVariables on strings. -/
def expandEnvironmentVariables (env : DetectEnv) (template : String) : String :=
  String.mk (expandEnvVarsF env template.toList.length template.toList)

/-- Find the first <user-id>-style marker (case-insensitive, one optional
dash or whitespace between user and id), returning position and length. -/
def findUserIdMarker : List Char → Nat → Option (Nat × Nat)
  | [], _ => none
  | c :: rest, pos =>
    let here := c :: rest
    if charsStartWithCI here "<user".toList then
      let afterUser := here.drop 5
      match afterUser with
      | mid :: tail =>
        if (mid = '-' ∨ isSpaceChar mid = true) ∧ charsStartWithCI tail "id>".toList then
          some (pos, 9)
        else if charsStartWithCI afterUser "id>".toList then some (pos, 8)
        else findUserIdMarker rest (pos + 1)
      | [] => findUserIdMarker rest (pos + 1)
    else findUserIdMarker rest (pos + 1)

/-- expandUserIdTemplate: enumerate up to 100 subdirectories of the marker's
prefix, falling back to a * wildcard when the prefix is missing or
unreadable. -/
def expandUserIdTemplate (env : DetectEnv) (template : String) : List String :=
  let cs := template.toList
  match findUserIdMarker cs 0 with
  | none => [template]
  | some (idx, len) =>
    let before := cs.take idx
    let after := cs.drop (idx + len)
    let parent := trimTrailingSlashesBoth (String.mk before)
    let starVersion := String.mk (before ++ '*' :: after)
    if parent = "" ∨ env.pathExists parent = false then [starVersion]
    else
      match env.readdir parent with
      | none => [starVersion]
      | some entries =>
        let candidateIds :=
          (((entries.filter (fun e => e.isDir)).map (fun e => e.name)).filter
            (fun n => 0 < (jsTrim n).length)).take 100
        if candidateIds.isEmpty then [starVersion]
        else candidateIds.map (fun id => String.mk before ++ id ++ String.mk after)

/-- hasWildcardPattern. -/
def hasWildcardPattern (value : String) : Bool :=
  strContains value "*" || strContains value "?"

/-- Glob matching for one path segment (* and ? wildcards, other characters
literal and case-sensitive on the non-win32 platform model); fuel bounds
the backtracking. -/
def globMatchF : Nat → List Char → List Char → Bool
  | 0, _, _ => false
  | _ + 1, [], [] => true
  | _ + 1, [], _ :: _ => false
  | f + 1, '*' :: ps, s =>
    globMatchF f ps s ||
      (match s with
       | [] => false
       | _ :: srest => globMatchF f ('*' :: ps) srest)
  | _ + 1, '?' :: _, [] => false
  | f + 1, '?' :: ps, _ :: srest => globMatchF f ps srest
  | _ + 1, _ :: _, [] => false
  | f + 1, c :: ps, d :: srest => c = d && globMatchF f ps srest

/-- Glob matching on whole segments. -/
def globMatch (p s : String) : Bool :=
  globMatchF ((p.toList.length + 1) * (s.toList.length + 1) + 1) p.toList s.toList

/-- One segment step of expandWildcardTemplate. -/
def expandWildcardSegment (env : DetectEnv) (bases : List String) (segment : String)
    (isLast : Bool) : List String :=
  if hasWildcardPattern segment then
    bases.foldl (fun next base =>
      let directoryToRead := if base = "" then "." else base
      if env.pathExists directoryToRead = false then next
      else
        match env.readdir directoryToRead with
        | none => next
        | some entries =>
          entries.foldl (fun next entry =>
            if globMatch segment entry.name = false then next
            else if ¬isLast ∧ entry.isDir = false then next
            else next ++ [pathJoin [base, entry.name]]) next) []
  else bases.map (fun base => pathJoin [base, segment])

/-- The segment loop of expandWildcardTemplate; none signals the
empty-bases fallback to the unexpanded template. -/
def expandWildcardSegLoop (env : DetectEnv) : List String → List String → Option (List String)
  | [], bases => some bases
  | segment :: rest, bases =>
    let next := expandWildcardSegment env bases segment rest.isEmpty
    let bases2 := dedupeStrings next
    if bases2.isEmpty then none else expandWildcardSegLoop env rest bases2

/-- expandWildcardTemplate: walk the path segment by segment, expanding *
and ? against the directory tree. -/
def expandWildcardTemplate (env : DetectEnv) (template : String) : List String :=
  let normalized := pathNormalize template
  if hasWildcardPattern normalized = false then [normalized]
  else
    let root := if isAbsPath normalized then "/" else ""
    let relative := String.mk (normalized.toList.drop root.length)
    let segments :=
      (splitStr (fun c => c = '\\' ∨ c = '/') relative).filter (fun s => 0 < s.length)
    if segments.isEmpty then [normalized]
    else
      match expandWildcardSegLoop env segments [if root = "" then "." else root] with
      | none => [normalized]
      | some bases => bases.map pathNormalize

/-- stripOuterQuotes. -/
def stripOuterQuotes (value : String) : String :=
  if strStartsWith value "\"" && strEndsWith value "\"" && 2 ≤ value.length then
    String.mk (value.toList.drop 1).dropLast
  else value

/-- expandLocationTemplate: wiki-token normalization, Cartesian token
substitution, environment/user-id/wildcard expansion, trim, quote
stripping, normalization and exact dedupe. -/
def expandLocationTemplate (env : DetectEnv) (rawLocation : String)
    (context : ResolveContext) : List String :=
  let normalized := normalizeTemplateSyntax rawLocation
  let t1 := replaceTokenWithMany [normalized] "<path-to-game>" [context.installPath]
  let t2 := replaceTokenWithMany t1 "<steamlibrary-folder>" context.steamLibraries
  let t3 := replaceTokenWithMany t2 "<steam-folder>" (defaultSteamRoots env)
  let t4 := replaceTokenWithMany t3 "<the name of the software>"
    [pathBasename context.installPath, context.gameName]
  let t5 := replaceTokenWithMany t4 "<game>" [context.gameName, pathBasename context.installPath]
  let expanded :=
    (((((t5.map (expandEnvironmentVariables env)).foldl
        (fun acc t => acc ++ expandUserIdTemplate env t) []).foldl
        (fun acc t => acc ++ expandWildcardTemplate env t) []).map jsTrim).filter
        (fun t => 0 < t.length)).map (fun t => pathNormalize (stripOuterQuotes t))
  dedupeExact expanded

/-- trimTrailingPathSeparators: drop trailing separators but never into the
parsed root. -/
def trimTrailingPathSeparators (value : String) : String :=
  let root := if isAbsPath value then "/" else ""
  let cs := value.toList
  let stripped := (cs.reverse.dropWhile (fun c => c = '/' ∨ c = '\\')).reverse
  if stripped.length < root.length then String.mk (cs.take root.length)
  else String.mk stripped

/-- The inner entry scan of inspectDirectory: counts entries, spots
save-like files (with early break), and queues subdirectories up to depth
2 and the 300-entry cap. -/
def inspectEntries : List DirEnt → String → Nat → Nat → List (String × Nat) →
    Nat × Bool × List (String × Nat)
  | [], _, _, scanned, adds => (scanned, false, adds)
  | entry :: rest, folder, depth, scanned, adds =>
    let scanned2 := scanned + 1
    if entry.isDir = false then
      let ext := lowerStr (pathExtname entry.name)
      if saveFileExtensions.contains ext then (scanned2, true, adds)
      else if 300 ≤ scanned2 then (scanned2, false, adds)
      else inspectEntries rest folder depth scanned2 adds
    else
      let adds2 :=
        if depth < 2 then adds ++ [(pathJoin [folder, entry.name], depth + 1)] else adds
      if 300 ≤ scanned2 then (scanned2, false, adds2)
      else inspectEntries rest folder depth scanned2 adds2

/-- The BFS loop of inspectDirectory.  Fuel 601 dominates the real loop: at
most 300 scanned entries bound the queue growth, so the queue is popped at
most 601 times before one of the loop conditions fails. -/
def inspectLoop (env : DetectEnv) : Nat → List (String × Nat) → Nat → Bool → Bool →
    Bool × Bool
  | 0, _, _, nonEmpty, saveLike => (nonEmpty, saveLike)
  | f + 1, queue, scanned, nonEmpty, saveLike =>
    if queue.isEmpty || 300 ≤ scanned || saveLike then (nonEmpty, saveLike)
    else
      match queue with
      | [] => (nonEmpty, saveLike)
      | next :: qrest =>
        match env.readdir next.1 with
        | none => inspectLoop env f qrest scanned nonEmpty saveLike
        | some entries =>
          let nonEmpty2 := nonEmpty || !entries.isEmpty
          let (scanned2, save2, adds) := inspectEntries entries next.1 next.2 scanned []
          inspectLoop env f (qrest ++ adds) scanned2 nonEmpty2 (saveLike || save2)

/-- inspectDirectory: is the directory non-empty, and does a shallow BFS
find a save-like file? -/
def inspectDirectory (env : DetectEnv) (root : String) : Bool × Bool :=
  inspectLoop env 601 [(root, 0)] 0 false false

/-- scoreCandidatePath: existence base 0.55, type and extension bonuses,
directory inspection bonuses, save/profile path marker, registry marker;
capped at 1. -/
def scoreCandidatePath (env : DetectEnv) (candidatePath : String) (source : CandidateSource)
    (rawLocation : String) : Option CatalogSavePathCandidate :=
  let normalizedPath := trimTrailingPathSeparators (pathNormalize (jsTrim candidatePath))
  if normalizedPath = "" || strContains normalizedPath "*" ||
      env.pathExists normalizedPath = false then none
  else
    match env.statKind normalizedPath with
    | none => none
    | some kind =>
      let base : List String × JsNum := (["path exists"], ⟨55, 100⟩)
      let (reasons1, score1) :=
        match kind with
        | StatKind.file =>
          let withFile := JsNum.add base.2 ⟨15, 100⟩
          let ext := lowerStr (pathExtname normalizedPath)
          if saveFileExtensions.contains ext then
            (base.1 ++ ["save-like extension (" ++ ext ++ ")"], JsNum.add withFile ⟨25, 100⟩)
          else (base.1, withFile)
        | StatKind.dir =>
          let withDir := JsNum.add base.2 ⟨10, 100⟩
          let inspection := inspectDirectory env normalizedPath
          let (r2, s2) :=
            if inspection.1 then (base.1 ++ ["directory not empty"], JsNum.add withDir ⟨10, 100⟩)
            else (base.1, withDir)
          if inspection.2 then (r2 ++ ["save-like files detected"], JsNum.add s2 ⟨20, 100⟩)
          else (r2, s2)
        | StatKind.other => (base.1, base.2)
      let lower := lowerStr normalizedPath
      let (reasons2, score2) :=
        if strContains lower "save" || strContains lower "profile" then
          (reasons1 ++ ["path contains save/profile marker"], JsNum.add score1 ⟨5, 100⟩)
        else (reasons1, score1)
      let (reasons3, score3) :=
        match source with
        | CandidateSource.registry =>
          (reasons2 ++ ["resolved via registry value"], JsNum.add score2 ⟨5, 100⟩)
        | CandidateSource.filesystem => (reasons2, score2)
      some ⟨normalizedPath, JsNum.minJ (JsNum.ofNat 1) score3, source, rawLocation, reasons3⟩

/-- mergeCandidatesByPath: first-insertion order map keyed by path (no case
folding off win32), keeping the higher score and the reason union, then
sorted by score descending. -/
def mergeCandidatesByPath (input : List CatalogSavePathCandidate) :
    List CatalogSavePathCandidate :=
  let byPath := input.foldl (fun m candidate =>
    let key := candidate.path
    match List.find? (fun e => e.1 == key) m with
    | none => m ++ [(key, candidate)]
    | some (_, existing) =>
      let merged :=
        if existing.score.ltB candidate.score then
          { candidate with reasons := dedupeStrings (existing.reasons ++ candidate.reasons) }
        else
          { existing with reasons := dedupeStrings (existing.reasons ++ candidate.reasons) }
      List.map (fun e => if e.1 == key then (key, merged) else e) m)
    ([] : List (String × CatalogSavePathCandidate))
  jsSortBy (fun left right => right.score.sub left.score) (byPath.map (·.2))

/-- The 0.45 match threshold literal. -/
def catalogMatchThreshold : JsNum := ⟨45, 100⟩

/-- A catalog entry with its best query score. -/
structure RankedEntry where
  entry : ParsedCatalogEntry
  score : JsNum
deriving DecidableEq, Repr

/-- Score every entry by its best query similarity and sort descending. -/
def rankEntries (queryNames : List String) (entries : List ParsedCatalogEntry) :
    List RankedEntry :=
  jsSortBy (fun left right => right.score.sub left.score)
    (entries.map (fun entry =>
      ⟨entry, queryNames.foldl (fun best query =>
        JsNum.maxJ best (scoreTitleSimilarity query entry.title)) (JsNum.ofNat 0)⟩))

/-- The 20 + round((i / max(1, total)) * 70) progress percentage. -/
def percentFor (index total : Nat) : JsNum :=
  JsNum.ofInt (20 + JsNum.roundJ (JsNum.mul (JsNum.fracNat index (max 1 total)) (JsNum.ofNat 70)))

/-- Score each expanded path and push the hits, updating the selected
candidate debug info. -/
def collectCandidatesFromPaths (env : DetectEnv) (paths : List String)
    (source : CandidateSource) (rawLocation : String)
    (resolved : List CatalogSavePathCandidate) (debug : CatalogSaveDetectionDebugInfo) :
    List CatalogSavePathCandidate × CatalogSaveDetectionDebugInfo :=
  paths.foldl (fun acc candidatePath =>
    match scoreCandidatePath env candidatePath source rawLocation with
    | none => acc
    | some candidate => (acc.1 ++ [candidate], updateDebugSelectedCandidate acc.2 candidate))
    (resolved, debug)

/-- The per-rule resolution loop of detectCatalogSavePaths, with its
progress reports (which propagate callback exceptions). -/
def detectLocationsLoop (env : DetectEnv) (adapters : CatalogDetectionAdapters)
    (cb : Option (CatalogSaveDetectionProgress → Except String Unit)) (title : String)
    (context : ResolveContext) (totalLocations : Nat) :
    Nat → List String → List CatalogSavePathCandidate → CatalogSaveDetectionDebugInfo →
    Except String (List CatalogSavePathCandidate × CatalogSaveDetectionDebugInfo)
  | _, [], resolved, debug => Except.ok (resolved, debug)
  | index, rawLocation :: rest, resolved, debug =>
    if rawLocation = "" then
      detectLocationsLoop env adapters cb title context totalLocations (index + 1) rest
        resolved debug
    else do
      let _ ← reportProgress cb
        ⟨percentFor index totalLocations, JsNum.ofNat index, JsNum.ofNat totalLocations,
          "Checking location " ++ natToStr (index + 1) ++ "/" ++ natToStr totalLocations ++
            "...", some title, some debug⟩
      let debugA := { debug with currentLocation := some rawLocation, expandedPaths := [] }
      let (resolved2, debugB) :=
        if isRegistryPath rawLocation then
          let registryKey := normalizeRegistryPath rawLocation
          let registryValues := match adapters.readRegistryValues with
            | some f => f registryKey
            | none => readRegistryValuesFromKey registryKey
          registryValues.foldl (fun acc registryValue =>
            let paths := expandLocationTemplate env registryValue context
            let dbg := updateDebugPathSamples env acc.2 paths
            collectCandidatesFromPaths env paths CandidateSource.registry rawLocation acc.1 dbg)
            (resolved, debugA)
        else
          let paths := expandLocationTemplate env rawLocation context
          let dbg := updateDebugPathSamples env debugA paths
          collectCandidatesFromPaths env paths CandidateSource.filesystem rawLocation resolved dbg
      let _ ← reportProgress cb
        ⟨percentFor (index + 1) totalLocations, JsNum.ofNat (index + 1),
          JsNum.ofNat totalLocations,
          "Validated " ++ natToStr (index + 1) ++ "/" ++ natToStr totalLocations ++
            " locations.", some title, some debugB⟩
      detectLocationsLoop env adapters cb title context totalLocations (index + 1) rest
        resolved2 debugB

/-- Everything detectCatalogSavePaths does after the similarity gate has
accepted the best entry: ambiguity flagging, Windows-rule extraction, rule
resolution and candidate ranking. -/
def detectAfterMatch (env : DetectEnv) (adapters : CatalogDetectionAdapters)
    (input : CatalogSaveDetectionInput) (metadata : Option ExeMetadata)
    (warnings : List String) (debug : CatalogSaveDetectionDebugInfo) (best : RankedEntry)
    (rankedRest : List RankedEntry) : Except String CatalogSaveDetectionResult :=
  let second := rankedRest.head?
  let titleAmbiguous := match second with
    | some s => ((⟨65, 100⟩ : JsNum).leB s.score) && ((best.score.sub s.score).leB ⟨5, 100⟩)
    | none => false
  let warnings2 := match second with
    | some s =>
      if titleAmbiguous then
        warnings ++ ["Ambiguous title match: \"" ++ best.entry.title ++ "\" vs \"" ++
          s.entry.title ++ "\"."]
      else warnings
    | none => warnings
  let windowsLocations := dedupeStrings
    (((best.entry.saveLocations.filter (fun location =>
        lowerStr (jsTrim location.system) == "windows")).foldl
      (fun acc location => acc ++ splitCompositeLocation (jsTrim location.location)) []).filter
      (fun location => 0 < location.length))
  let debug2 := { debug with windowsLocations := windowsLocations }
  if windowsLocations.isEmpty then
    Except.ok ⟨DetectionStatus.noWindowsLocations, some best.entry.title, best.score,
      titleAmbiguous, [], metadata, warnings2, some debug2⟩
  else do
    let steamLibraries := match adapters.listSteamLibraries with
      | some ls => ls
      | none => detectSteamLibraries env
    let resolutionContext : ResolveContext :=
      ⟨input.installPath, input.gameName, steamLibraries⟩
    let totalLocations := windowsLocations.length
    let _ ← reportProgress input.onProgress
      ⟨JsNum.ofNat 20, JsNum.ofNat 0, JsNum.ofNat totalLocations,
        "Matched \"" ++ best.entry.title ++ "\". Resolving Windows save locations...",
        some best.entry.title, some debug2⟩
    let pair ← detectLocationsLoop env adapters input.onProgress best.entry.title
      resolutionContext totalLocations 0 windowsLocations [] debug2
    let _ ← reportProgress input.onProgress
      ⟨JsNum.ofNat 95, JsNum.ofNat totalLocations, JsNum.ofNat totalLocations,
        "Ranking candidate save paths...", some best.entry.title, some pair.2⟩
    let candidates := mergeCandidatesByPath pair.1
    let debug4 := match candidates.head? with
      | some topCandidate => updateDebugSelectedCandidate pair.2 topCandidate
      | none => pair.2
    if candidates.isEmpty then
      Except.ok ⟨DetectionStatus.noValidCandidates, some best.entry.title, best.score,
        titleAmbiguous, [], metadata, warnings2, some debug4⟩
    else
      Except.ok ⟨DetectionStatus.matched, some best.entry.title, best.score, titleAmbiguous,
        candidates, metadata, warnings2, some debug4⟩

/-- detectCatalogSavePaths: load the catalog, match a title against the
query set, gate on the 0.45 threshold, then resolve and rank candidate
save paths.  The module-level catalog cache is threaded explicitly. -/
def detectCatalogSavePaths (env : DetectEnv) (input : CatalogSaveDetectionInput)
    (adapters : CatalogDetectionAdapters) (cache : CatalogCache) :
    Except String (CatalogSaveDetectionResult × CatalogCache) := do
  let warnings : List String := []
  let debug := createDebugInfo
  let _ ← reportProgress input.onProgress
    ⟨JsNum.ofNat 5, JsNum.ofNat 0, JsNum.ofNat 1, "Loading catalog database...", none,
      some debug⟩
  let (entriesOpt, cache2) := loadCatalogEntries env input.catalogPath adapters cache
  match entriesOpt with
  | none =>
    Except.ok (⟨DetectionStatus.catalogMissing, none, JsNum.ofNat 0, false, [], none,
      warnings, some debug⟩, cache2)
  | some entries =>
    if entries.isEmpty then
      Except.ok (⟨DetectionStatus.catalogInvalid, none, JsNum.ofNat 0, false, [], none,
        warnings, some debug⟩, cache2)
    else do
      let _ ← reportProgress input.onProgress
        ⟨JsNum.ofNat 15, JsNum.ofNat 0, JsNum.ofNat 1,
          "Matching game title using executable metadata...", none, some debug⟩
      let metadata := match adapters.readExeMetadata with
        | some f => f input.exePath
        | none => readExeMetadataFromFile input.exePath
      let debug1 := { debug with
        exeProductName := match metadata with
          | some m => m.productName
          | none => none,
        exeFileDescription := match metadata with
          | some m => m.fileDescription
          | none => none }
      let installFolderName := pathBasename (pathNormalize input.installPath)
      let exeFileName := pathNameNoExt (pathBasename input.exePath)
      let queryNames := dedupeStrings
        [(metadata.bind (fun m => m.productName)).getD "",
         (metadata.bind (fun m => m.fileDescription)).getD "",
         input.gameName, installFolderName, exeFileName]
      let debug2 := { debug1 with queryStrings := queryNames }
      let ranked := rankEntries queryNames entries
      let debug3 := { debug2 with
        topTitleMatches := (ranked.take 3).map (fun item => ⟨item.entry.title, item.score⟩) }
      match ranked with
      | [] =>
        Except.ok (⟨DetectionStatus.noMatch, none, JsNum.ofNat 0, false, [], metadata,
          warnings, some debug3⟩, cache2)
      | best :: rankedRest =>
        if best.score.ltB catalogMatchThreshold then
          Except.ok (⟨DetectionStatus.noMatch, none, best.score, false, [], metadata,
            warnings, some debug3⟩, cache2)
        else do
          let r ← detectAfterMatch env adapters input metadata warnings debug3 best rankedRest
          Except.ok (r, cache2)

/-- The first progress payload detectCatalogSavePaths reports, before any
other work. -/
def initialProgressPayload : CatalogSaveDetectionProgress :=
  ⟨JsNum.ofNat 5, JsNum.ofNat 0, JsNum.ofNat 1, "Loading catalog database...", none,
    some createDebugInfo⟩

/-- The status of a completed detection run, if it did not throw. -/
def detectStatusOf (x : Except String (CatalogSaveDetectionResult × CatalogCache)) :
    Option DetectionStatus :=
  match x with
  | Except.ok (r, _) => some r.status
  | Except.error _ => none

/-- The match score of a completed detection run, if it did not throw. -/
def detectScoreOf (x : Except String (CatalogSaveDetectionResult × CatalogCache)) :
    Option JsNum :=
  match x with
  | Except.ok (r, _) => some r.matchScore
  | Except.error _ => none

/-- The snapshot rows of one game, in index order. -/
def gameSnapshots (w : World) (gameId : String) : List Snapshot :=
  w.snapshots.filter (fun s => s.game_id == gameId)

/-- The order in which computeSnapshotChecksum's sort arranges rows:
relative_path non-greater under the localeCompare model. -/
def relPathOrder (a b : SnapshotFile) : Prop :=
  (localeCompareM a.relative_path b.relative_path).nonposB = true

instance : DecidableRel relPathOrder := fun a b => by
  unfold relPathOrder; infer_instance

/-- The order in which applyRetentionPolicy's sort arranges rows:
created_at non-smaller (descending recency) under the localeCompare
model. -/
def createdDescOrder (a b : Snapshot) : Prop :=
  (localeCompareM b.created_at a.created_at).nonposB = true

instance : DecidableRel createdDescOrder := fun a b => by
  unfold createdDescOrder; infer_instance

/-- The game's snapshots as applyRetentionPolicy sorts them: by created_at
descending (localeCompare, stable). -/
def retentionSorted (gameId : String) (snaps : List Snapshot) : List Snapshot :=
  jsSortBy (fun left right => localeCompareM right.created_at left.created_at)
    (snaps.filter (fun s => s.game_id == gameId))

/-- The rows applyRetentionPolicy deletes: everything past the newest
max(1, retention_count). -/
def retentionToRemove (settings : Settings) (gameId : String) (snaps : List Snapshot) :
    List Snapshot :=
  (retentionSorted gameId snaps).drop (max 1 settings.retentionCount)

/-- The snapshot rows surviving applyRetentionPolicy, as a pure function of
the rows it starts from. -/
def retentionKeepFilter (settings : Settings) (gameId : String) (snaps : List Snapshot) :
    List Snapshot :=
  snaps.filter
    (fun s => !((retentionToRemove settings gameId snaps).any (fun t => s.id == t.id)))

/-! ## Concrete fixtures used by witnesses and counterexamples -/

/-- A benign host environment: copies and removals succeed, timestamps
format as TS-prefixed strings, and every date string parses to itself. -/
def fixtureEnv : Env :=
  ⟨fun _ _ => false, fun _ => false, fun s => "TS-" ++ s, fun s => some s⟩

/-- A host environment on which every directory removal fails. -/
def fixtureFailEnv : Env :=
  ⟨fun _ _ => false, fun _ => true, fun s => "TS-" ++ s, fun s => some s⟩

/-- Default settings with retention 10. -/
def fixtureSettings : Settings := ⟨5, 10, "/st", false, "/data"⟩

/-- Settings with retention 1. -/
def fixtureSettings1 : Settings := ⟨5, 1, "/st", false, "/data"⟩

/-- A snapshot manifest over one folder location, parameterized by its
storage folder. -/
def fixtureManifest (storageFolder : String) : SnapshotManifestPayload :=
  ⟨2, "snap-1", "2024-01-01T00:00:00.000Z", SnapshotReason.manual,
    [("loc1", ⟨"/save", LocationType.folder, false, true, storageFolder⟩)]⟩

/-- A world holding one game whose only save location is disabled, and one
existing snapshot with a valid on-disk manifest: the safety backup of a
restore returns null here (no enabled locations). -/
def fixtureRestoreWorld : World :=
  { games := [⟨"g1", "Game One", "/inst", "/inst/g.exe", "2020-01-01", none, GameStatus.prot,
      "GameOne"⟩],
    saveLocations := [⟨"loc1", "g1", "/save", LocationType.folder, false, false⟩],
    snapshots := [⟨"snap-1", "g1", "2024-01-01T00:00:00.000Z", 3, "c",
      "/st/GameOne/Snapshots/T1", SnapshotReason.manual⟩],
    snapshotFiles := [⟨"sf1", "snap-1", "loc1", "a.sav", 3, "h"⟩],
    events := [],
    files := [("/st/GameOne/Snapshots/T1/snapshot.manifest.json",
        FileVal.jsonDoc (manifestToJson (fixtureManifest "save"))),
      ("/st/GameOne/Snapshots/T1/save/a.sav", FileVal.text "abc")],
    dirs := ["/st"],
    inFlight := [],
    uuids := ["u1", "u2", "u3"],
    now := "2024-02-02T00:00:00.000Z",
    persistCount := 0 }

/-- A world whose snapshot's manifest declares the escaping storage folder
../../outside. -/
def fixtureEscapeWorld : World :=
  { fixtureRestoreWorld with
    snapshotFiles := [⟨"sf1", "snap-1", "loc1", "f.sav", 3, "h"⟩],
    files := [("/st/GameOne/Snapshots/T1/snapshot.manifest.json",
      FileVal.jsonDoc (manifestToJson (fixtureManifest "../../outside")))] }

/-- A world with one enabled location holding one file and one older
snapshot already on record; a backup with retention 1 must prune it. -/
def fixtureC8World : World :=
  { games := [⟨"g1", "Game One", "/inst", "/inst/g.exe", "2020-01-01", none, GameStatus.prot,
      "GameOne"⟩],
    saveLocations := [⟨"loc1", "g1", "/save", LocationType.folder, false, true⟩],
    snapshots := [⟨"old-snap", "g1", "2023-01-01T00:00:00.000Z", 3, "c0",
      "/st/GameOne/Snapshots/T0", SnapshotReason.manual⟩],
    snapshotFiles := [⟨"of1", "old-snap", "loc1", "a.sav", 3, "h0"⟩],
    events := [],
    files := [("/save/a.sav", FileVal.text "abc")],
    dirs := ["/save", "/st"],
    inFlight := [],
    uuids := ["u-snap", "u-f1", "u-x"],
    now := "2024-01-02T03:04:05.000Z",
    persistCount := 0 }

/-- The C8 fixture's backup run. -/
def fixtureC8Run : Except String (Option Snapshot) × World :=
  backupGame fixtureEnv fixtureSettings1 "g1" SnapshotReason.manual false fixtureC8World

/-- The snapshot produced by the C8 fixture's backup run. -/
def fixtureC8Snap : Snapshot :=
  match fixtureC8Run.1 with
  | Except.ok (some s) => s
  | _ => ⟨"", "", "", 0, "", "", SnapshotReason.manual⟩

/-- A detection environment with nothing on disk. -/
def emptyDetectEnv : DetectEnv :=
  ⟨fun _ => false, fun _ => none, fun _ => none, fun _ => none, fun _ => none, fun _ => none,
    []⟩

/-- A 14-token query name. -/
def fixtureQuery14 : String := "a1 a2 a3 a4 a5 a6 a7 a8 a9 b1 b2 b3 b4 b5"

/-- A 15-token catalog title sharing 9 tokens with the query, so the best
similarity score is exactly 9/20 = 0.45. -/
def fixtureTitle15 : String := "a1 a2 a3 a4 a5 a6 a7 a8 a9 c1 c2 c3 c4 c5 c6"

/-- The single-entry catalog for the threshold fixture. -/
def fixtureThresholdEntries : List ParsedCatalogEntry := [⟨fixtureTitle15, []⟩]

/-- Adapters injecting the threshold fixture's catalog and suppressing
executable metadata. -/
def fixtureThresholdAdapters : CatalogDetectionAdapters :=
  { loadCatalogEntries := some (fun _ => some fixtureThresholdEntries),
    readExeMetadata := some (fun _ => none) }

/-- The threshold fixture's detection input (no progress callback). -/
def fixtureThresholdInput : CatalogSaveDetectionInput :=
  ⟨"/cat.json", fixtureQuery14, "/i/q.exe", "/i/q", none⟩

/-- The threshold fixture's detection run. -/
def fixtureC4Run : Except String (CatalogSaveDetectionResult × CatalogCache) :=
  detectCatalogSavePaths emptyDetectEnv fixtureThresholdInput fixtureThresholdAdapters []

/-- The threshold fixture's detection result. -/
def fixtureC4Result : CatalogSaveDetectionResult :=
  match fixtureC4Run with
  | Except.ok (r, _) => r
  | Except.error _ => ⟨DetectionStatus.noMatch, none, ⟨0, 1⟩, false, [], none, [], none⟩

/-- A catalog environment whose JSON root is a bare array holding one fully
valid entry (title plus a Windows rule). -/
def fixtureBareArrayEnv : DetectEnv :=
  ⟨fun p => p == "/cat.json", fun _ => none, fun _ => none,
    fun p => if p == "/cat.json" then some 7 else none,
    fun p =>
      if p == "/cat.json" then
        some (JVal.arr [JVal.obj [("title", JVal.str "Game One"),
          ("save_game_data_locations", JVal.arr [JVal.obj
            [("system", JVal.str "Windows"), ("location", JVal.str "%APPDATA%\\One")]])]])
      else none,
    fun _ => none, []⟩

/-- The bare-array fixture's detection input. -/
def fixtureBareArrayInput : CatalogSaveDetectionInput :=
  ⟨"/cat.json", "Game One", "/inst/Game One/g.exe", "/inst/Game One", none⟩

/-- A detection input whose progress callback always throws. -/
def fixtureThrowingInput : CatalogSaveDetectionInput :=
  ⟨"/cat.json", "Game One", "/e.exe", "/i",
    some (fun _ => Except.error "progress callback threw")⟩

/-! ## Run lemmas for the effect monad -/

theorem M_bind_run {α β : Type} (x : M α) (f : α → M β) (w : World) :
    (x >>= f) w = match x w with
      | (Except.ok a, w2) => f a w2
      | (Except.error e, w2) => (Except.error e, w2) := rfl

theorem M_pure_run {α : Type} (a : α) (w : World) : (pure a : M α) w = (Except.ok a, w) := rfl

theorem M_get_run (w : World) : M.get w = (Except.ok w, w) := rfl

theorem M_throw_run {α : Type} (e : String) (w : World) :
    (M.throw e : M α) w = (Except.error e, w) := rfl

theorem M_modifyW_run (f : World → World) (w : World) :
    M.modifyW f w = (Except.ok (), f w) := rfl

/-! ## Claim C7: an in-flight backup makes a second request return null with
no effect at all -/

/-- C7: while a backup for the same game_id is in flight, backupGame
returns null immediately (no error) and leaves the world — disk, index,
in-flight set, uuid supply — completely unchanged. -/
theorem backupGame_inflight_null (env : Env) (settings : Settings) (gameId : String)
    (reason : SnapshotReason) (skipRetention : Bool) (w : World)
    (h : w.inFlight.contains gameId = true) :
    backupGame env settings gameId reason skipRetention w = (Except.ok none, w) := by
  unfold backupGame
  rw [h]
  simp

/-- Witness for C7 at a concrete world with g1 in flight. -/
theorem backupGame_inflight_null_witness :
    backupGame fixtureEnv fixtureSettings "g1" SnapshotReason.manual false
      { fixtureC8World with inFlight := ["g1"] } = (Except.ok none,
      { fixtureC8World with inFlight := ["g1"] }) :=
  backupGame_inflight_null fixtureEnv fixtureSettings "g1" SnapshotReason.manual false
    { fixtureC8World with inFlight := ["g1"] } (by decide)

/-! ## Claim C6: a failing directory removal leaves the index untouched -/

/-- C6: when removing the snapshot's on-disk directory raises, deleteSnapshot
propagates that error and the world — in particular the snapshot row and its
file rows — is exactly unchanged. -/
theorem deleteSnapshot_propagates_removal_error (env : Env) (snapshotId : String) (log : Bool)
    (w : World) (s : Snapshot)
    (hfind : w.snapshots.find? (fun x => x.id == snapshotId) = some s)
    (hfail : env.removeDirFails s.storage_path = true) :
    deleteSnapshot env snapshotId log w =
      (Except.error ("Failed to remove directory: " ++ s.storage_path), w) := by
  simp only [deleteSnapshot, removeDirSafeM, hfind, hfail, if_true]

/-- Witness for C6: the restore fixture with a removal-refusing host. -/
theorem deleteSnapshot_propagates_removal_error_witness :
    deleteSnapshot fixtureFailEnv "snap-1" true fixtureRestoreWorld =
      (Except.error ("Failed to remove directory: " ++ "/st/GameOne/Snapshots/T1"),
        fixtureRestoreWorld) :=
  deleteSnapshot_propagates_removal_error fixtureFailEnv "snap-1" true fixtureRestoreWorld
    ⟨"snap-1", "g1", "2024-01-01T00:00:00.000Z", 3, "c", "/st/GameOne/Snapshots/T1",
      SnapshotReason.manual⟩ (by decide) (by decide)

/-! ## Claim C10: deleting an unknown snapshot is a silent no-op, while
verify and restore raise Snapshot not found -/

/-- C10: for a snapshot id absent from the index, deleteSnapshot returns
normally and changes nothing, while verifySnapshot and restoreSnapshot both
raise "Snapshot not found" (also changing nothing). -/
theorem deleteSnapshot_missing_silent_noop (env : Env) (settings : Settings) (w : World)
    (snapshotId : String)
    (hfind : w.snapshots.find? (fun s => s.id == snapshotId) = none) :
    deleteSnapshot env snapshotId true w = (Except.ok (), w) ∧
    verifySnapshot env snapshotId w = (Except.error "Snapshot not found", w) ∧
    restoreSnapshot env settings snapshotId w = (Except.error "Snapshot not found", w) := by
  refine ⟨?_, ?_, ?_⟩
  · simp only [deleteSnapshot, hfind]
  · simp only [verifySnapshot, hfind]
  · simp only [restoreSnapshot, M_bind_run, M_get_run, hfind, M_throw_run]

/-- Witness for C10 at the restore fixture and an unknown id. -/
theorem deleteSnapshot_missing_silent_noop_witness :
    deleteSnapshot fixtureEnv "nope" true fixtureRestoreWorld =
      (Except.ok (), fixtureRestoreWorld) ∧
    verifySnapshot fixtureEnv "nope" fixtureRestoreWorld =
      (Except.error "Snapshot not found", fixtureRestoreWorld) ∧
    restoreSnapshot fixtureEnv fixtureSettings "nope" fixtureRestoreWorld =
      (Except.error "Snapshot not found", fixtureRestoreWorld) :=
  deleteSnapshot_missing_silent_noop fixtureEnv fixtureSettings fixtureRestoreWorld "nope"
    (by decide)

/-! ## Claim C3: a null safety backup blocks the restore -/

/-- C3: when the snapshot exists and its manifest is valid but the
pre-restore safety backup (reason pre-restore, retention skipped) returns
null, restoreSnapshot raises "Restore blocked: failed to create safety
backup before restore." and its final world is exactly the safety backup's
world: past the safety attempt the restore performs no write at all, so no
destination location is written. -/
theorem restoreSnapshot_blocked_when_safety_null (env : Env) (settings : Settings)
    (snapshotId : String) (w w2 : World) (s : Snapshot) (m : SnapshotManifestPayload)
    (hfind : w.snapshots.find? (fun x => x.id == snapshotId) = some s)
    (hman : readSnapshotManifestP env w s.storage_path = some m)
    (hsafety : backupGame env settings s.game_id SnapshotReason.preRestore true w =
      (Except.ok none, w2)) :
    restoreSnapshot env settings snapshotId w =
      (Except.error "Restore blocked: failed to create safety backup before restore.", w2) := by
  simp only [restoreSnapshot, M_bind_run, M_get_run, hfind, hman, hsafety, M_throw_run]

/-- Witness for C3: the fixture world whose only save location is disabled,
so the safety backup returns null. -/
theorem restoreSnapshot_blocked_when_safety_null_witness :
    restoreSnapshot fixtureEnv fixtureSettings "snap-1" fixtureRestoreWorld =
      (Except.error "Restore blocked: failed to create safety backup before restore.",
        (backupGame fixtureEnv fixtureSettings "g1" SnapshotReason.preRestore true
          fixtureRestoreWorld).2) :=
  restoreSnapshot_blocked_when_safety_null fixtureEnv fixtureSettings "snap-1"
    fixtureRestoreWorld
    (backupGame fixtureEnv fixtureSettings "g1" SnapshotReason.preRestore true
      fixtureRestoreWorld).2
    ⟨"snap-1", "g1", "2024-01-01T00:00:00.000Z", 3, "c", "/st/GameOne/Snapshots/T1",
      SnapshotReason.manual⟩
    (fixtureManifest "save") (by decide) (by decide) rfl

/-! ## Theory of the string-comparison model -/

theorem listCharCmp_swap (x : List Char) : ∀ y, listCharCmp x y = -listCharCmp y x := by
  induction x with
  | nil => intro y; cases y <;> simp [listCharCmp]
  | cons a as ih =>
    intro y
    cases y with
    | nil => simp [listCharCmp]
    | cons b bs =>
      simp only [listCharCmp]
      rcases Nat.lt_trichotomy a.toNat b.toNat with h | h | h
      · rw [if_pos h, if_neg (by omega), if_pos h]
      · rw [if_neg (by omega), if_neg (by omega), if_neg (by omega), if_neg (by omega)]
        exact ih bs
      · rw [if_neg (by omega), if_pos h, if_pos h]
        simp

theorem listCharCmp_eq_zero_iff (x : List Char) : ∀ y, listCharCmp x y = 0 ↔ x = y := by
  induction x with
  | nil => intro y; cases y <;> simp [listCharCmp]
  | cons a as ih =>
    intro y
    cases y with
    | nil => simp [listCharCmp]
    | cons b bs =>
      simp only [listCharCmp]
      rcases Nat.lt_trichotomy a.toNat b.toNat with h | h | h
      · rw [if_pos h]
        constructor
        · intro habs; omega
        · intro heq
          have : a = b := (List.cons.injEq a as b bs ▸ heq).1
          subst this; omega
      · have hab : a = b := by
          have h1 := Char.ofNat_toNat a
          have h2 := Char.ofNat_toNat b
          rw [← h1, ← h2, h]
        subst hab
        rw [if_neg (by omega), if_neg (by omega)]
        rw [ih bs]
        constructor
        · intro heq; rw [heq]
        · intro heq; exact (List.cons.injEq a as a bs ▸ heq).2
      · rw [if_neg (by omega), if_pos h]
        constructor
        · intro habs; omega
        · intro heq
          have : a = b := (List.cons.injEq a as b bs ▸ heq).1
          subst this; omega

theorem listCharCmp_trans_nonpos (x : List Char) :
    ∀ y z, listCharCmp x y ≤ 0 → listCharCmp y z ≤ 0 → listCharCmp x z ≤ 0 := by
  induction x with
  | nil => intro y z _ _; cases z <;> simp [listCharCmp]
  | cons a as ih =>
    intro y z h1 h2
    cases y with
    | nil => simp [listCharCmp] at h1
    | cons b bs =>
      cases z with
      | nil => simp [listCharCmp] at h2
      | cons c cs =>
        simp only [listCharCmp] at h1 h2 ⊢
        rcases Nat.lt_trichotomy a.toNat b.toNat with hab | hab | hab
        · rcases Nat.lt_trichotomy b.toNat c.toNat with hbc | hbc | hbc
          · rw [if_pos (by omega)]; omega
          · rw [if_pos (by omega)]; omega
          · rw [if_neg (by omega), if_pos hbc] at h2; omega
        · rcases Nat.lt_trichotomy b.toNat c.toNat with hbc | hbc | hbc
          · rw [if_pos (by omega)]; omega
          · rw [if_neg (by omega), if_neg (by omega)]
            rw [if_neg (by omega), if_neg (by omega)] at h1
            rw [if_neg (by omega), if_neg (by omega)] at h2
            exact ih bs cs h1 h2
          · rw [if_neg (by omega), if_pos hbc] at h2; omega
        · rw [if_neg (by omega), if_pos hab] at h1; omega

theorem strCmpInt_eq_zero_iff (s t : String) : strCmpInt s t = 0 ↔ s = t := by
  unfold strCmpInt
  rw [listCharCmp_eq_zero_iff]
  constructor
  · intro h
    cases s; cases t; simp [String.toList] at h; rw [h]
  · intro h; rw [h]

/-- The checksum sort relation used by computeSnapshotChecksum. -/
theorem localeCompareM_nonpos_iff (s t : String) :
    ((localeCompareM s t).nonposB = true) ↔ strCmpInt s t ≤ 0 := by
  simp [localeCompareM, JsNum.nonposB, JsNum.ofInt]

/-! ## A stable sort of a permutation with distinct keys is unique -/

theorem eq_of_perm_of_sorted_key {α : Type} (key : α → String) (r : α → α → Prop)
    (hanti : ∀ a b, r a b → r b a → key a = key b) :
    ∀ (l₁ l₂ : List α), l₁.Perm l₂ → List.Sorted r l₁ → List.Sorted r l₂ →
      (l₁.map key).Nodup → l₁ = l₂ := by
  intro l₁
  induction l₁ with
  | nil =>
    intro l₂ hp _ _ _
    exact (hp.symm.eq_nil).symm
  | cons x t ih =>
    intro l₂ hp hs₁ hs₂ hnd
    cases l₂ with
    | nil => exact absurd hp.eq_nil (by simp)
    | cons y t₂ =>
      have hsx := List.sorted_cons.mp hs₁
      have hsy := List.sorted_cons.mp hs₂
      have hxy : x = y := by
        by_contra hne
        have hy1 : y ∈ x :: t := hp.mem_iff.mpr (List.mem_cons_self y t₂)
        have hyt : y ∈ t := by
          rcases List.mem_cons.mp hy1 with h | h
          · exact absurd h.symm hne
          · exact h
        have hx2 : x ∈ y :: t₂ := hp.mem_iff.mp (List.mem_cons_self x t)
        have hxt : x ∈ t₂ := by
          rcases List.mem_cons.mp hx2 with h | h
          · exact absurd h hne
          · exact h
        have hkey : key x = key y := hanti x y (hsx.1 y hyt) (hsy.1 x hxt)
        have hmem : key y ∈ t.map key := List.mem_map_of_mem key hyt
        have hnd' := List.nodup_cons.mp hnd
        exact hnd'.1 (hkey ▸ hmem)
      subst hxy
      have hp' : t.Perm t₂ := hp.cons_inv
      rw [ih t₂ hp' hsx.2 hsy.2 (List.nodup_cons.mp hnd).2]

/-! ## Claim C1: the aggregate checksum versus permutations of the rows -/

/-- C1 counterexample: two snapshot-file rows from different locations that
share the same relative_path.  The checksum sort compares only
relative_path, every JS sort is stable, so swapping the rows swaps the
payload order and changes the hash: the checksum is not a pure function of
the row set, contradicting the claim (which asserts sorting by the full
(location_id, relative_path, per_file_checksum, size_bytes) tuple). -/
theorem computeSnapshotChecksum_not_permutation_invariant :
    computeSnapshotChecksum
        [⟨"i1", "s", "A", "x", 1, "h1"⟩, ⟨"i2", "s", "B", "x", 2, "h2"⟩] ≠
      computeSnapshotChecksum
        [⟨"i2", "s", "B", "x", 2, "h2"⟩, ⟨"i1", "s", "A", "x", 1, "h1"⟩] := by
  decide

/-- C1 as amended: the checksum sorts the rows by relative_path only, so it
is permutation-invariant whenever the rows' relative_paths are pairwise
distinct (in particular, rows of two locations sharing a relative_path are
outside the guarantee). -/
theorem computeSnapshotChecksum_perm_invariant (l₁ l₂ : List SnapshotFile)
    (hp : l₁.Perm l₂)
    (hnd : (l₁.map (fun f => f.relative_path)).Nodup) :
    computeSnapshotChecksum l₁ = computeSnapshotChecksum l₂ := by
  have hanti : ∀ a b : SnapshotFile, relPathOrder a b → relPathOrder b a →
      a.relative_path = b.relative_path := by
    intro a b h1 h2
    unfold relPathOrder at h1 h2
    rw [localeCompareM_nonpos_iff] at h1 h2
    have hswap := listCharCmp_swap a.relative_path.toList b.relative_path.toList
    have hzero : strCmpInt a.relative_path b.relative_path = 0 := by
      unfold strCmpInt at h1 h2 ⊢
      omega
    exact (strCmpInt_eq_zero_iff _ _).mp hzero
  haveI htotal : IsTotal SnapshotFile relPathOrder := by
    constructor
    intro a b
    unfold relPathOrder
    rw [localeCompareM_nonpos_iff, localeCompareM_nonpos_iff]
    have hswap := listCharCmp_swap a.relative_path.toList b.relative_path.toList
    unfold strCmpInt
    omega
  haveI htrans : IsTrans SnapshotFile relPathOrder := by
    constructor
    intro a b c h1 h2
    unfold relPathOrder at h1 h2 ⊢
    rw [localeCompareM_nonpos_iff] at h1 h2 ⊢
    exact listCharCmp_trans_nonpos _ _ _ h1 h2
  have hsorteq : List.insertionSort relPathOrder l₁ = List.insertionSort relPathOrder l₂ := by
    apply eq_of_perm_of_sorted_key (fun f => f.relative_path) relPathOrder hanti
    · exact ((List.perm_insertionSort relPathOrder l₁).trans hp).trans
        (List.perm_insertionSort relPathOrder l₂).symm
    · exact List.sorted_insertionSort relPathOrder l₁
    · exact List.sorted_insertionSort relPathOrder l₂
    · exact (((List.perm_insertionSort relPathOrder l₁).map
        (fun f => f.relative_path)).nodup_iff).mpr hnd
  have e₁ : jsSortBy (fun a b : SnapshotFile =>
      localeCompareM a.relative_path b.relative_path) l₁ =
      List.insertionSort relPathOrder l₁ := rfl
  have e₂ : jsSortBy (fun a b : SnapshotFile =>
      localeCompareM a.relative_path b.relative_path) l₂ =
      List.insertionSort relPathOrder l₂ := rfl
  simp only [computeSnapshotChecksum]
  rw [e₁, e₂, hsorteq]

/-- Witness for the amended C1: two rows with distinct relative_paths give
the same checksum in either order. -/
theorem computeSnapshotChecksum_perm_invariant_witness :
    List.Perm [(⟨"i1", "s", "A", "x", 1, "h1"⟩ : SnapshotFile), ⟨"i2", "s", "B", "y", 2, "h2"⟩]
        [⟨"i2", "s", "B", "y", 2, "h2"⟩, ⟨"i1", "s", "A", "x", 1, "h1"⟩] ∧
    computeSnapshotChecksum
        [⟨"i1", "s", "A", "x", 1, "h1"⟩, ⟨"i2", "s", "B", "y", 2, "h2"⟩] =
      computeSnapshotChecksum
        [⟨"i2", "s", "B", "y", 2, "h2"⟩, ⟨"i1", "s", "A", "x", 1, "h1"⟩] :=
  ⟨by decide,
    computeSnapshotChecksum_perm_invariant
      [⟨"i1", "s", "A", "x", 1, "h1"⟩, ⟨"i2", "s", "B", "y", 2, "h2"⟩]
      [⟨"i2", "s", "B", "y", 2, "h2"⟩, ⟨"i1", "s", "A", "x", 1, "h1"⟩]
      (by decide) (by decide)⟩

/-! ## Run lemma for the Except monad used by detection -/

theorem exceptBind_match {ε α β : Type} (x : Except ε α) (f : α → Except ε β) :
    (x >>= f : Except ε β) = match x with
      | Except.ok a => f a
      | Except.error e => Except.error e := by
  cases x <;> rfl

/-! ## Claim C9: a throwing progress callback aborts detection -/

/-- C9 counterexample: a progress callback that throws is not swallowed;
detectCatalogSavePaths rejects with the callback's own error instead of
returning a detection result, contradicting the claim that detection is not
aborted. -/
theorem detect_callback_error_propagates_cx :
    detectCatalogSavePaths emptyDetectEnv fixtureThrowingInput ⟨none, none, none, none⟩ [] =
      Except.error "progress callback threw" := rfl

/-- C9 as amended: neither reportProgress nor detectCatalogSavePaths
catches exceptions from the progress callback; an exception thrown on the
very first progress report propagates out of detectCatalogSavePaths and
aborts detection with that error. -/
theorem detect_callback_error_propagates (env : DetectEnv)
    (input : CatalogSaveDetectionInput) (adapters : CatalogDetectionAdapters)
    (cache : CatalogCache) (cb : CatalogSaveDetectionProgress → Except String Unit)
    (e : String)
    (hcb : input.onProgress = some cb)
    (herr : cb (clampProgress initialProgressPayload) = Except.error e) :
    detectCatalogSavePaths env input adapters cache = Except.error e := by
  simp only [initialProgressPayload] at herr
  unfold detectCatalogSavePaths reportProgress
  simp only [hcb, herr, exceptBind_match]

/-- Witness for the amended C9: the throwing fixture. -/
theorem detect_callback_error_propagates_witness :
    detectCatalogSavePaths emptyDetectEnv fixtureThrowingInput ⟨some (fun _ => none), none,
      none, none⟩ [] = Except.error "progress callback threw" :=
  detect_callback_error_propagates emptyDetectEnv fixtureThrowingInput
    ⟨some (fun _ => none), none, none, none⟩ []
    (fun _ => Except.error "progress callback threw") "progress callback threw" rfl rfl

/-! ## Claim C5: a bare-array catalog root is rejected, not parsed -/

/-- C5 counterexample: a catalog file whose JSON root is a bare array
holding one fully valid entry makes detection report catalog-invalid,
contradicting the claim that bare arrays are parsed like object roots. -/
theorem detect_bare_array_catalog_invalid_cx :
    detectStatusOf (detectCatalogSavePaths fixtureBareArrayEnv fixtureBareArrayInput
      ⟨none, none, none, none⟩ []) = some DetectionStatus.catalogInvalid := rfl

/-- C5 as amended: getCatalogGamesArray returns null for every bare-array
root, so the loader yields the empty entry list and detection reports the
catalog as invalid; only an object root with a games array is accepted. -/
theorem bare_array_catalog_rejected :
    (∀ gs : List JVal, getCatalogGamesArray (JVal.arr gs) = none) ∧
    (∀ (env : DetectEnv) (input : CatalogSaveDetectionInput)
        (adapters : CatalogDetectionAdapters) (mt : Int) (gs : List JVal),
      adapters.loadCatalogEntries = none →
      input.onProgress = none →
      env.pathExists input.catalogPath = true →
      env.catalogMtime input.catalogPath = some mt →
      env.catalogJson input.catalogPath = some (JVal.arr gs) →
      detectCatalogSavePaths env input adapters [] =
        Except.ok (⟨DetectionStatus.catalogInvalid, none, JsNum.ofNat 0, false, [], none,
          [], some createDebugInfo⟩, [])) := by
  constructor
  · intro gs; rfl
  · intro env input adapters mt gs hadapters hprog hex hmt hjson
    have hload : loadCatalogEntries env input.catalogPath adapters [] = (some [], []) := by
      unfold loadCatalogEntries loadCatalogEntriesFresh
      rw [hadapters, hex, hmt, hjson]
      rfl
    unfold detectCatalogSavePaths reportProgress
    rw [hprog]
    simp only [exceptBind_match, hload]
    rfl

/-- Witness for the amended C5: the bare-array fixture. -/
theorem bare_array_catalog_rejected_witness :
    detectCatalogSavePaths fixtureBareArrayEnv fixtureBareArrayInput ⟨none, none, none, none⟩
      [] = Except.ok (⟨DetectionStatus.catalogInvalid, none, JsNum.ofNat 0, false, [], none,
        [], some createDebugInfo⟩, []) :=
  bare_array_catalog_rejected.2 fixtureBareArrayEnv fixtureBareArrayInput
    ⟨none, none, none, none⟩ 7
    [JVal.obj [("title", JVal.str "Game One"),
      ("save_game_data_locations", JVal.arr [JVal.obj
        [("system", JVal.str "Windows"), ("location", JVal.str "%APPDATA%\\One")]])]]
    rfl rfl rfl rfl rfl

/-! ## Claim C4: the 0.45 similarity threshold is strict -/

theorem rankEntries_length (q : List String) (entries : List ParsedCatalogEntry) :
    (rankEntries q entries).length = entries.length := by
  unfold rankEntries jsSortBy
  rw [(List.perm_insertionSort _ _).length_eq, List.length_map]

/-- Every result detectAfterMatch can return carries the accepted entry's
score and a status other than no-match. -/
theorem detectAfterMatch_not_noMatch (env : DetectEnv)
    (adapters : CatalogDetectionAdapters) (input : CatalogSaveDetectionInput)
    (metadata : Option ExeMetadata) (warnings : List String)
    (debug : CatalogSaveDetectionDebugInfo) (best : RankedEntry)
    (rankedRest : List RankedEntry) (r : CatalogSaveDetectionResult)
    (h : detectAfterMatch env adapters input metadata warnings debug best rankedRest =
      Except.ok r) :
    r.status ≠ DetectionStatus.noMatch ∧ r.matchScore = best.score := by
  unfold detectAfterMatch at h
  simp only [exceptBind_match] at h
  split at h
  · rw [Except.ok.injEq] at h
    subst h
    exact ⟨by simp, rfl⟩
  · split at h
    · split at h
      · split at h
        · split at h
          · rw [Except.ok.injEq] at h
            subst h
            exact ⟨by simp, rfl⟩
          · rw [Except.ok.injEq] at h
            subst h
            exact ⟨by simp, rfl⟩
        · exact absurd h (by simp)
      · exact absurd h (by simp)
    · exact absurd h (by simp)

/-- C4 counterexample: a detection run whose best catalog-title similarity
score is exactly 9/20 = 0.45 is NOT rejected: it passes the strict < 0.45
gate and proceeds (here to no-windows-locations, since the matched entry has
no Windows rules), contradicting the claim that exactly 0.45 yields
no-match. -/
theorem detect_threshold_exact_accepted_cx :
    detectStatusOf fixtureC4Run = some DetectionStatus.noWindowsLocations ∧
    detectScoreOf fixtureC4Run = some ⟨9, 20⟩ := by
  constructor <;> rfl

/-- C4 as amended: with a non-empty catalog, detection reports no-match
exactly when the best score is strictly below 0.45; a best score of exactly
0.45 (and likewise 0.46) is accepted and detection proceeds to location
resolution. -/
theorem detect_noMatch_iff_score_below_threshold (env : DetectEnv)
    (input : CatalogSaveDetectionInput) (adapters : CatalogDetectionAdapters)
    (cache : CatalogCache) (entries : List ParsedCatalogEntry) (cache2 : CatalogCache)
    (r : CatalogSaveDetectionResult) (cacheOut : CatalogCache)
    (hload : loadCatalogEntries env input.catalogPath adapters cache = (some entries, cache2))
    (hne : entries ≠ [])
    (hrun : detectCatalogSavePaths env input adapters cache = Except.ok (r, cacheOut)) :
    (r.status = DetectionStatus.noMatch ↔ r.matchScore.ltB catalogMatchThreshold = true) := by
  unfold detectCatalogSavePaths at hrun
  simp only [exceptBind_match, hload] at hrun
  split at hrun
  case h_2 => exact absurd hrun (by simp)
  have hemp : entries.isEmpty = false := by
    cases entries
    · exact absurd rfl hne
    · rfl
  rw [hemp] at hrun
  simp only [Bool.false_eq_true, if_false] at hrun
  split at hrun
  case h_2 => exact absurd hrun (by simp)
  split at hrun
  case h_1 heq =>
    have hlen := congrArg List.length heq
    rw [rankEntries_length] at hlen
    simp only [List.length_nil] at hlen
    exact absurd (List.length_eq_zero.mp hlen) hne
  case h_2 best rankedRest heq =>
    split at hrun
    case isTrue hlt =>
      rw [Except.ok.injEq, Prod.mk.injEq] at hrun
      obtain ⟨hr, _⟩ := hrun
      subst hr
      simpa using hlt
    case isFalse hlt =>
      split at hrun
      case h_2 => exact absurd hrun (by simp)
      case h_1 r2 hafter =>
        rw [Except.ok.injEq, Prod.mk.injEq] at hrun
        obtain ⟨hr, _⟩ := hrun
        subst hr
        obtain ⟨hstat, hscore⟩ := detectAfterMatch_not_noMatch _ _ _ _ _ _ _ _ _ hafter
        constructor
        · intro habs; exact absurd habs hstat
        · intro habs
          rw [hscore] at habs
          exact absurd habs (by simpa using hlt)

/-- Witness for the amended C4 at the exactly-0.45 fixture. -/
theorem detect_noMatch_iff_score_below_threshold_witness :
    (fixtureC4Result.status = DetectionStatus.noMatch ↔
      fixtureC4Result.matchScore.ltB catalogMatchThreshold = true) :=
  detect_noMatch_iff_score_below_threshold emptyDetectEnv fixtureThresholdInput
    fixtureThresholdAdapters [] fixtureThresholdEntries [] fixtureC4Result []
    rfl (by decide) rfl

/-! ## Claim C2: the containment guard around snapshot file paths -/

theorem writeFileW_snapshots (w : World) (p : String) (v : FileVal) :
    (writeFileW w p v).snapshots = w.snapshots := by
  unfold writeFileW
  split <;> rfl

theorem ensureDirW_snapshots (w : World) (p : String) :
    (ensureDirW w p).snapshots = w.snapshots := by
  unfold ensureDirW
  split <;> rfl

theorem copyFileWithRetries_snapshots (env : Env) (src dst : String) (r : Nat) (w : World) :
    ((copyFileWithRetries env src dst r) w).2.snapshots = w.snapshots := by
  unfold copyFileWithRetries
  split
  · rfl
  · split
    · rfl
    · exact writeFileW_snapshots w dst _

theorem freshUuid_snapshots (w : World) : (freshUuid w).2.snapshots = w.snapshots := by
  unfold freshUuid
  cases huu : w.uuids <;> rfl

theorem freshUuidM_snapshots (w : World) : (freshUuidM w).2.snapshots = w.snapshots := by
  unfold freshUuidM freshUuid
  cases huu : w.uuids <;> rfl

theorem M_bind_snapshots {α β : Type} (x : M α) (f : α → M β)
    (hx : ∀ w, (x w).2.snapshots = w.snapshots)
    (hf : ∀ a w, ((f a) w).2.snapshots = w.snapshots) (w : World) :
    ((x >>= f) w).2.snapshots = w.snapshots := by
  rcases hxw : x w with ⟨r, w2⟩
  have h2 : w2.snapshots = w.snapshots := by
    have hh := hx w
    rw [hxw] at hh
    exact hh
  rw [M_bind_run, hxw]
  cases r with
  | ok a => exact (hf a w2).trans h2
  | error e => exact h2

theorem backupFilesLoop_snapshots (env : Env) (location : StoredSaveLocation)
    (folders : List (String × String)) (root sid : String) (files : List String) :
    ∀ (acc : List SnapshotFile × Nat × Nat) (w : World),
      ((backupFilesLoop env location folders root sid files acc) w).2.snapshots =
        w.snapshots := by
  induction files with
  | nil => intro acc w; rfl
  | cons fp rest ih =>
    intro acc w
    obtain ⟨sf, ts, wn⟩ := acc
    refine M_bind_snapshots _ _ (fun w => copyFileWithRetries_snapshots env fp _ 4 w) ?_ w
    intro a w
    refine M_bind_snapshots _ _ (fun w => rfl) ?_ w
    intro size w
    refine M_bind_snapshots _ _ (fun w => rfl) ?_ w
    intro checksum w
    refine M_bind_snapshots _ _ (fun w => freshUuidM_snapshots w) ?_ w
    intro fileId w
    exact ih _ w

theorem backupLocationsLoop_snapshots (env : Env) (gameId : String)
    (folders : List (String × String)) (root sid : String)
    (locations : List StoredSaveLocation) :
    ∀ (acc : List SnapshotFile × Nat × Nat) (w : World),
      ((backupLocationsLoop env gameId folders root sid locations acc) w).2.snapshots =
        w.snapshots := by
  induction locations with
  | nil => intro acc w; rfl
  | cons location rest ih =>
    intro acc w
    obtain ⟨sf, ts, wn⟩ := acc
    refine M_bind_snapshots _ _ (fun w => rfl) ?_ w
    intro wg w
    by_cases hex : fsExists wg location.path = false
    · rw [if_pos hex]
      refine M_bind_snapshots _ _ (fun w => rfl) ?_ w
      intro u w
      exact ih _ w
    · rw [if_neg hex]
      refine M_bind_snapshots _ _
        (fun w => backupFilesLoop_snapshots env location folders root sid _ _ w) ?_ w
      intro acc2 w
      exact ih acc2 w

theorem deleteSnapshot_nofail (env : Env) (tid : String)
    (henv : ∀ p, env.removeDirFails p = false) (w : World) :
    (deleteSnapshot env tid false w).1 = Except.ok () ∧
    (deleteSnapshot env tid false w).2.snapshots =
      w.snapshots.filter (fun s => !(s.id == tid)) := by
  unfold deleteSnapshot
  cases hf : w.snapshots.find? (fun s => s.id == tid) with
  | none =>
    have hall := List.find?_eq_none.mp hf
    refine ⟨rfl, ?_⟩
    show w.snapshots = w.snapshots.filter (fun s => !(s.id == tid))
    rw [List.filter_eq_self.mpr]
    intro s hs
    simpa using hall s hs
  | some snapshot =>
    have hr : removeDirSafeM env snapshot.storage_path w =
        (Except.ok (),
          { w with
            files := w.files.filter (fun e =>
              !(e.1 == snapshot.storage_path ||
                strStartsWith e.1 (snapshot.storage_path ++ "/"))),
            dirs := w.dirs.filter (fun d =>
              !(d == snapshot.storage_path ||
                strStartsWith d (snapshot.storage_path ++ "/"))) }) := by
      unfold removeDirSafeM
      rw [henv snapshot.storage_path]
      rfl
    simp only [hr]
    exact ⟨rfl, rfl⟩

theorem deleteSnapshotsLoop_spec (env : Env) (henv : ∀ p, env.removeDirFails p = false)
    (l : List Snapshot) : ∀ w : World,
    (deleteSnapshotsLoop env l w).1 = Except.ok () ∧
    (deleteSnapshotsLoop env l w).2.snapshots =
      w.snapshots.filter (fun s => !(l.any (fun t => s.id == t.id))) := by
  induction l with
  | nil =>
    intro w
    refine ⟨rfl, ?_⟩
    simp [deleteSnapshotsLoop, M_pure_run]
  | cons t rest ih =>
    intro w
    obtain ⟨h1, h2⟩ := deleteSnapshot_nofail env t.id henv w
    rcases hd : deleteSnapshot env t.id false w with ⟨r1, w1⟩
    rw [hd] at h1 h2
    simp only [] at h1 h2
    subst h1
    obtain ⟨g1, g2⟩ := ih w1
    have hrun : deleteSnapshotsLoop env (t :: rest) w = deleteSnapshotsLoop env rest w1 := by
      show (deleteSnapshot env t.id false >>= fun _ => deleteSnapshotsLoop env rest) w =
        deleteSnapshotsLoop env rest w1
      rw [M_bind_run, hd]
    rw [hrun]
    refine ⟨g1, ?_⟩
    rw [g2, h2, List.filter_filter]
    apply List.filter_congr
    intro s _
    simp only [List.any_cons, Bool.not_or]
    rw [Bool.and_comm]

theorem applyRetentionPolicy_spec (env : Env) (settings : Settings) (gameId : String)
    (henv : ∀ p, env.removeDirFails p = false) (w : World) :
    (applyRetentionPolicy env settings gameId w).1 = Except.ok () ∧
    (applyRetentionPolicy env settings gameId w).2.snapshots =
      retentionKeepFilter settings gameId w.snapshots := by
  have hrun : applyRetentionPolicy env settings gameId w =
      deleteSnapshotsLoop env (retentionToRemove settings gameId w.snapshots) w := rfl
  rw [hrun]
  have hspec := deleteSnapshotsLoop_spec env henv
    (retentionToRemove settings gameId w.snapshots) w
  exact ⟨hspec.1, hspec.2⟩

theorem logEventW_snapshots (w : World) (gid : Option String) (t : EventType) (m : String) :
    (logEventW w gid t m).snapshots = w.snapshots := rfl

theorem updateGameStatusW_snapshots (w : World) (gid : String) (st : GameStatus) :
    (updateGameStatusW w gid st).snapshots = w.snapshots := rfl

theorem backupLocationsLoop_ok_inv {env : Env} {gameId : String}
    {folders : List (String × String)} {root sid : String}
    {locations : List StoredSaveLocation} {acc : List SnapshotFile × Nat × Nat}
    {r : Except String (List SnapshotFile × Nat × Nat)} {w wl : World}
    (h : backupLocationsLoop env gameId folders root sid locations acc w = (r, wl)) :
    wl.snapshots = w.snapshots := by
  have hh := backupLocationsLoop_snapshots env gameId folders root sid locations acc w
  rw [h] at hh
  exact hh

theorem applyRetentionPolicy_ok_inv {env : Env} {settings : Settings} {gameId : String}
    {u : Unit} {w wg : World}
    (henv : ∀ p, env.removeDirFails p = false)
    (h : applyRetentionPolicy env settings gameId w = (Except.ok u, wg)) :
    wg.snapshots = retentionKeepFilter settings gameId w.snapshots := by
  have hs := (applyRetentionPolicy_spec env settings gameId henv w).2
  rw [h] at hs
  exact hs

/-- A successful backup leaves exactly the retention-filtered rows: the try
block inserts the new row and then applyRetentionPolicy prunes. -/
theorem backupGameTryBlock_success_snapshots (env : Env) (settings : Settings)
    (gameId : String) (reason : SnapshotReason) (sid cat root : String)
    (henv : ∀ p, env.removeDirFails p = false) (wa : World) (snap : Snapshot) (w2 : World)
    (h : backupGameTryBlock env settings gameId reason false sid cat root wa =
      (Except.ok (some snap), w2)) :
    w2.snapshots = retentionKeepFilter settings gameId (wa.snapshots ++ [snap]) := by
  unfold backupGameTryBlock writeSnapshotManifest at h
  simp only [M_bind_run, M_modifyW_run, M_get_run, M_pure_run, Bool.false_eq_true,
    if_false] at h
  split at h
  · simp [M_bind_run, M_modifyW_run, M_pure_run] at h
  · simp only [M_bind_run] at h
    split at h
    next acc wl heqloop =>
      obtain ⟨sf, ts, warn⟩ := acc
      dsimp only [] at h
      split at h
      · simp only [M_bind_run, M_modifyW_run, M_pure_run] at h
        split at h <;> simp at h
      · simp only [M_bind_run, M_modifyW_run, M_pure_run] at h
        split at h
        next u wg heqret =>
          rw [Prod.mk.injEq] at h
          obtain ⟨h1, h2⟩ := h
          rw [Except.ok.injEq, Option.some.injEq] at h1
          subst h1
          subst h2
          have hg := applyRetentionPolicy_ok_inv henv heqret
          have hwl := backupLocationsLoop_ok_inv heqloop
          rw [ensureDirW_snapshots] at hwl
          rw [logEventW_snapshots, updateGameStatusW_snapshots, hg]
          dsimp only [persistDbW]
          rw [writeFileW_snapshots, hwl]
        next e wg heqret =>
          simp at h
    next e wl heqloop =>
      simp at h

/-- backupGame success, without skip_retention: the final snapshot rows are
the retention filter of the pre-existing rows plus the new row. -/
theorem backupGame_success_snapshots (env : Env) (settings : Settings) (gameId : String)
    (reason : SnapshotReason) (henv : ∀ p, env.removeDirFails p = false)
    (w : World) (snap : Snapshot) (w' : World)
    (h : backupGame env settings gameId reason false w = (Except.ok (some snap), w')) :
    w'.snapshots = retentionKeepFilter settings gameId (w.snapshots ++ [snap]) := by
  unfold backupGame at h
  split at h
  · simp at h
  · simp only [] at h
    split at h
    · simp at h
    next game hgame =>
      split at h
      next v w4 heqtry =>
        rw [Prod.mk.injEq] at h
        obtain ⟨h1, h2⟩ := h
        rw [Except.ok.injEq] at h1
        subst h1
        subst h2
        have ht := backupGameTryBlock_success_snapshots env settings gameId reason _ _ _
          henv _ snap w4 heqtry
        show w4.snapshots = retentionKeepFilter settings gameId (w.snapshots ++ [snap])
        rw [ht, freshUuid_snapshots]
      next e w4 heqtry =>
        split at h <;> simp at h

/-! ## The pure arithmetic of the retention filter -/

theorem createdDescOrder_total (a b : Snapshot) :
    createdDescOrder a b ∨ createdDescOrder b a := by
  unfold createdDescOrder
  rw [localeCompareM_nonpos_iff, localeCompareM_nonpos_iff]
  have hswap := listCharCmp_swap b.created_at.toList a.created_at.toList
  unfold strCmpInt
  omega

theorem createdDescOrder_trans (a b c : Snapshot) (h1 : createdDescOrder a b)
    (h2 : createdDescOrder b c) : createdDescOrder a c := by
  unfold createdDescOrder at h1 h2 ⊢
  rw [localeCompareM_nonpos_iff] at h1 h2 ⊢
  unfold strCmpInt at h1 h2 ⊢
  exact listCharCmp_trans_nonpos _ _ _ h2 h1

theorem retentionSorted_eq (gameId : String) (snaps : List Snapshot) :
    retentionSorted gameId snaps =
      List.insertionSort createdDescOrder
        (snaps.filter (fun s => s.game_id == gameId)) := rfl

theorem retentionSorted_perm (gameId : String) (snaps : List Snapshot) :
    (retentionSorted gameId snaps).Perm (snaps.filter (fun s => s.game_id == gameId)) := by
  rw [retentionSorted_eq]
  exact List.perm_insertionSort _ _

theorem retentionSorted_isSorted (gameId : String) (snaps : List Snapshot) :
    List.Sorted createdDescOrder (retentionSorted gameId snaps) := by
  haveI : IsTotal Snapshot createdDescOrder := ⟨createdDescOrder_total⟩
  haveI : IsTrans Snapshot createdDescOrder := ⟨createdDescOrder_trans⟩
  rw [retentionSorted_eq]
  exact List.sorted_insertionSort _ _

theorem retentionToRemove_eq (settings : Settings) (gameId : String) (snaps : List Snapshot) :
    retentionToRemove settings gameId snaps =
      (retentionSorted gameId snaps).drop (max 1 settings.retentionCount) := rfl

theorem retention_ids_nodup (gameId : String) (snaps : List Snapshot)
    (hnodup : (snaps.map (fun s => s.id)).Nodup) :
    ((snaps.filter (fun s => s.game_id == gameId)).map (fun s => s.id)).Nodup := by
  have hsub : List.Sublist
      ((snaps.filter (fun s => s.game_id == gameId)).map (fun s => s.id))
      (snaps.map (fun s => s.id)) :=
    (List.filter_sublist snaps).map (fun s => s.id)
  exact hnodup.sublist hsub

theorem retentionKeepFilter_perm_take (settings : Settings) (gameId : String)
    (snaps : List Snapshot) (hnodup : (snaps.map (fun s => s.id)).Nodup) :
    ((retentionKeepFilter settings gameId snaps).filter
        (fun s => s.game_id == gameId)).Perm
      ((retentionSorted gameId snaps).take (max 1 settings.retentionCount)) := by
  have hndL := retention_ids_nodup gameId snaps hnodup
  have hperm := retentionSorted_perm gameId snaps
  have hndS : ((retentionSorted gameId snaps).map (fun s => s.id)).Nodup :=
    ((hperm.map (fun s => s.id)).nodup_iff).mpr hndL
  have hndSorted : (retentionSorted gameId snaps).Nodup := hndS.of_map
  have h1 : (retentionKeepFilter settings gameId snaps).filter
        (fun s => s.game_id == gameId)
      = (snaps.filter (fun s => s.game_id == gameId)).filter
          (fun s => !((retentionToRemove settings gameId snaps).any
            (fun t => s.id == t.id))) := by
    unfold retentionKeepFilter
    rw [List.filter_filter, List.filter_filter]
    apply List.filter_congr
    intro s _
    rw [Bool.and_comm]
  have h3 : (retentionSorted gameId snaps).filter
        (fun s => !((retentionToRemove settings gameId snaps).any (fun t => s.id == t.id)))
      = (retentionSorted gameId snaps).take (max 1 settings.retentionCount) := by
    conv_lhs => rw [← List.take_append_drop (max 1 settings.retentionCount)
      (retentionSorted gameId snaps)]
    rw [List.filter_append]
    have hdrop : ((retentionSorted gameId snaps).drop
          (max 1 settings.retentionCount)).filter
        (fun s => !((retentionToRemove settings gameId snaps).any (fun t => s.id == t.id)))
        = [] := by
      rw [List.filter_eq_nil_iff]
      intro t ht
      have hany : (retentionToRemove settings gameId snaps).any
          (fun x => t.id == x.id) = true :=
        List.any_eq_true.mpr ⟨t, by rw [retentionToRemove_eq]; exact ht, by simp⟩
      simp [hany]
    have htake : ((retentionSorted gameId snaps).take
          (max 1 settings.retentionCount)).filter
        (fun s => !((retentionToRemove settings gameId snaps).any (fun t => s.id == t.id)))
        = (retentionSorted gameId snaps).take (max 1 settings.retentionCount) := by
      rw [List.filter_eq_self]
      intro s hs
      simp only [Bool.not_eq_true']
      rw [List.any_eq_false]
      intro x hx
      intro hbeq
      have hid : s.id = x.id := by simpa using hbeq
      rw [retentionToRemove_eq] at hx
      have hxS : x ∈ retentionSorted gameId snaps := List.drop_subset _ _ hx
      have hsS : s ∈ retentionSorted gameId snaps := List.take_subset _ _ hs
      have hsx : s = x := List.inj_on_of_nodup_map hndS hsS hxS hid
      have hdisj := List.disjoint_take_drop hndSorted
        (le_refl (max 1 settings.retentionCount))
      rw [hsx] at hs
      exact hdisj hs hx
    rw [hdrop, htake, List.append_nil]
  rw [h1, ← h3]
  exact (hperm.filter _).symm

theorem retentionKeepFilter_count (settings : Settings) (gameId : String)
    (snaps : List Snapshot) (hnodup : (snaps.map (fun s => s.id)).Nodup)
    (hret : 1 ≤ settings.retentionCount)
    (hcount : settings.retentionCount <
      (snaps.filter (fun s => s.game_id == gameId)).length) :
    ((retentionKeepFilter settings gameId snaps).filter
      (fun s => s.game_id == gameId)).length = settings.retentionCount := by
  have hperm := retentionKeepFilter_perm_take settings gameId snaps hnodup
  have hlen := hperm.length_eq
  rw [List.length_take] at hlen
  have hslen := (retentionSorted_perm gameId snaps).length_eq
  rw [hlen, hslen]
  omega

theorem retentionKeepFilter_recency (settings : Settings) (gameId : String)
    (snaps : List Snapshot) (hnodup : (snaps.map (fun s => s.id)).Nodup) :
    ∀ a ∈ retentionKeepFilter settings gameId snaps, a.game_id = gameId →
    ∀ b ∈ snaps.filter (fun s => s.game_id == gameId),
      b ∉ retentionKeepFilter settings gameId snaps → createdDescOrder a b := by
  intro a ha hag b hb hbn
  have hperm := retentionKeepFilter_perm_take settings gameId snaps hnodup
  have ha' : a ∈ (retentionKeepFilter settings gameId snaps).filter
      (fun s => s.game_id == gameId) :=
    List.mem_filter.mpr ⟨ha, by simp [hag]⟩
  have hatake := hperm.mem_iff.mp ha'
  have hbsn : b ∈ snaps := List.mem_of_mem_filter hb
  have hany : (retentionToRemove settings gameId snaps).any
      (fun t => b.id == t.id) = true := by
    cases hcase : (retentionToRemove settings gameId snaps).any (fun t => b.id == t.id) with
    | true => rfl
    | false =>
      exfalso
      apply hbn
      unfold retentionKeepFilter
      refine List.mem_filter.mpr ⟨hbsn, ?_⟩
      rw [hcase]
      rfl
  obtain ⟨t, ht, hbt⟩ := List.any_eq_true.mp hany
  have hid : b.id = t.id := by simpa using hbt
  have hndL := retention_ids_nodup gameId snaps hnodup
  have hpermS := retentionSorted_perm gameId snaps
  have hndS : ((retentionSorted gameId snaps).map (fun s => s.id)).Nodup :=
    ((hpermS.map (fun s => s.id)).nodup_iff).mpr hndL
  rw [retentionToRemove_eq] at ht
  have htS : t ∈ retentionSorted gameId snaps := List.drop_subset _ _ ht
  have hbS : b ∈ retentionSorted gameId snaps := hpermS.mem_iff.mpr hb
  have hbtEq : b = t := List.inj_on_of_nodup_map hndS hbS htS hid
  subst hbtEq
  exact List.Sorted.rel_of_mem_take_of_mem_drop (retentionSorted_isSorted gameId snaps)
    hatake ht

/-- C8: after a successful backupGame call without skip_retention (on a
host whose directory removals succeed), if the game then has more than
retention_count snapshots — ids pairwise distinct, retention_count ≥ 1 as
spec §3 requires — exactly retention_count snapshot rows remain for that
game, and every kept row is at least as recent by created_at (localeCompare
order) as every pruned row. -/
theorem retention_after_backup (env : Env) (settings : Settings) (gameId : String)
    (reason : SnapshotReason) (w : World) (snap : Snapshot) (w' : World)
    (henv : ∀ p, env.removeDirFails p = false)
    (hret : 1 ≤ settings.retentionCount)
    (hrun : backupGame env settings gameId reason false w = (Except.ok (some snap), w'))
    (hnodup : ((w.snapshots ++ [snap]).map (fun s => s.id)).Nodup)
    (hcount : settings.retentionCount <
      ((w.snapshots ++ [snap]).filter (fun s => s.game_id == gameId)).length) :
    (w'.snapshots.filter (fun s => s.game_id == gameId)).length = settings.retentionCount ∧
    ∀ a ∈ w'.snapshots, a.game_id = gameId →
      ∀ b ∈ (w.snapshots ++ [snap]).filter (fun s => s.game_id == gameId),
        b ∉ w'.snapshots → createdDescOrder a b := by
  have hw' := backupGame_success_snapshots env settings gameId reason henv w snap w' hrun
  rw [hw']
  exact ⟨retentionKeepFilter_count settings gameId _ hnodup hret hcount,
    retentionKeepFilter_recency settings gameId _ hnodup⟩

/-- Witness for C8 at the retention-1 fixture: the backup of g1 prunes the
older snapshot, leaving exactly one (the new, most recent) row. -/
theorem retention_after_backup_witness :
    (fixtureC8Run.2.snapshots.filter (fun s => s.game_id == "g1")).length =
      fixtureSettings1.retentionCount ∧
    ∀ a ∈ fixtureC8Run.2.snapshots, a.game_id = "g1" →
      ∀ b ∈ (fixtureC8World.snapshots ++ [fixtureC8Snap]).filter
          (fun s => s.game_id == "g1"),
        b ∉ fixtureC8Run.2.snapshots → createdDescOrder a b :=
  retention_after_backup fixtureEnv fixtureSettings1 "g1" SnapshotReason.manual
    fixtureC8World fixtureC8Snap fixtureC8Run.2
    (fun p => rfl) (by decide) rfl (by decide) (by decide)

end GameSaver
